import Mathlib

/-!
Verification of the CHIP-8 interpreter core (package `chip8`, file containing
`New`, `LoadRom` and `Cycle`) against its natural-language specification.

The machine state is embedded shallowly: Go's fixed-size `uint8`/`uint16`
arrays become total functions `Nat → Nat` together with explicit bounds
checks at every indexing site (Go panics on an out-of-range index; the
embedding returns the distinguished outcome `Outcome.panic` there), and
machine-integer arithmetic becomes `Nat` arithmetic with an explicit
`% 2^8` / `% 2^16` wherever the Go code can wrap.  The host-supplied
`waitForInput` callback only pumps window events, so it is modelled as
leaving the machine state unchanged; the unbounded `Waiting` busy-poll of
`Fx0A` therefore either finds a pressed key on its first scan or spins
forever, which the embedding reports as `Outcome.blocked`.  The single call
to `rand.Intn(0x100)` in `Cxkk` is modelled by an extra argument `rnd`,
reduced `% 0x100`.
-/

/-- The CHIP-8 machine state, mirroring the Go struct `Chip8`:
`Gfx [64][32]uint8`, `Key [16]bool`, `Draw bool`, `mem [0x1000]uint8`,
`v [0x10]uint8`, `stack [0x10]uint16`, `i, pc uint16`, `sp uint8`,
`dt, st uint8`. Arrays are embedded as total functions; all indexing done
by the interpreter is routed through explicitly bounds-checked accessors. -/
structure Chip8 where
  gfx : Nat → Nat → Nat
  key : Nat → Bool
  draw : Bool
  mem : Nat → Nat
  v : Nat → Nat
  stack : Nat → Nat
  i : Nat
  pc : Nat
  sp : Nat
  dt : Nat
  st : Nat

/-- The two error values `Cycle` can return: `fmt.Errorf("Unknown opcode 0x%x", op)`
and `fmt.Errorf("Expected Vx <= 0xf but found Vx=0x%x", c8.v[x])`. -/
inductive Err where
  | unknownOpcode (op : Nat)
  | invalidDigit (vx : Nat)
  deriving DecidableEq

/-- Result of one `Cycle` call.  `ok`/`err` carry the machine state visible to
the caller afterwards (the receiver is a pointer in Go).  `panic` models a Go
index-out-of-range panic; `blocked` models the `Fx0A` busy-wait never finding
a pressed key. -/
inductive Outcome where
  | ok (s : Chip8)
  | err (e : Err) (s : Chip8)
  | panic
  | blocked

def Outcome.isOk : Outcome → Bool
  | .ok _ => true
  | _ => false

/-- Bounds-checked read of `c8.mem[a]` (array length 0x1000). -/
def memRead (s : Chip8) (a : Nat) : Option Nat :=
  if a < 0x1000 then some (s.mem a) else none

/-- Bounds-checked write `c8.mem[a] = val`. -/
def memWrite (s : Chip8) (a val : Nat) : Option Chip8 :=
  if a < 0x1000 then
    some { s with mem := fun k => if k = a then val else s.mem k }
  else none

/-- Bounds-checked read of `c8.stack[idx]` (array length 0x10). -/
def stackRead (s : Chip8) (idx : Nat) : Option Nat :=
  if idx < 0x10 then some (s.stack idx) else none

/-- Bounds-checked write `c8.stack[idx] = val`. -/
def stackWrite (s : Chip8) (idx val : Nat) : Option Chip8 :=
  if idx < 0x10 then
    some { s with stack := fun k => if k = idx then val else s.stack k }
  else none

/-- Bounds-checked read of `c8.Key[idx]` (array length 0x10). -/
def keyRead (s : Chip8) (idx : Nat) : Option Bool :=
  if idx < 0x10 then some (s.key idx) else none

/-- Register write `c8.v[idx] = val`.  Every register index produced by
`Cycle` is a nibble (`(op & 0xf00) >> 8`, `0xf`, or a loop counter `≤ x`),
hence always within the 16-entry array; no bounds check is needed. -/
def setV (s : Chip8) (idx val : Nat) : Chip8 :=
  { s with v := fun k => if k = idx then val else s.v k }

/-- Display write `c8.Gfx[a][b] = val`.  Both indices are reduced
`% DisplayWidth` / `% DisplayHeight` at the only write site, hence always
in range. -/
def setGfx (s : Chip8) (a b val : Nat) : Chip8 :=
  { s with gfx := fun p q => if p = a then (if q = b then val else s.gfx p q) else s.gfx p q }

/-- `func (c8 *Chip8) incPc(skipNextInstruction bool)`: `pc += 4` or `pc += 2`
with `uint16` wraparound. -/
def incPc (s : Chip8) (skipNextInstruction : Bool) : Chip8 :=
  if skipNextInstruction then { s with pc := (s.pc + 4) % 0x10000 }
  else { s with pc := (s.pc + 2) % 0x10000 }

/-- The timer block at the end of `Cycle` (lines guarded by `c8.dt > 0` and
`c8.st > 0`); the `fmt.Print("\a")` beep is a pure console side effect and is
not part of the machine state. -/
def tickTimers (s : Chip8) : Chip8 :=
  let s1 := if s.dt > 0 then { s with dt := s.dt - 1 } else s
  if s1.st > 0 then { s1 with st := s1.st - 1 } else s1

/-- Every successful path of `Cycle` falls through to the timer block and
then `return nil`. -/
def finish (s : Chip8) : Outcome :=
  Outcome.ok (tickTimers s)

/-- The `Waiting` scan of `Fx0A`: `for i := uint8(0); i < 0x10; i++` looking
for the first pressed key, starting at index `k` with `cnt` entries left. -/
def findKeyFrom (s : Chip8) : Nat → Nat → Option Nat
  | _, 0 => none
  | k, cnt + 1 => if s.key k then some k else findKeyFrom s (k + 1) cnt

/-- The sprite-bit test of `Dxyn`: `spriteRow & uint8(0x1<<(7-col)) != 0`. -/
def spriteBit (spriteRow col : Nat) : Prop :=
  spriteRow &&& (1 <<< (7 - col)) ≠ 0

instance (spriteRow col : Nat) : Decidable (spriteBit spriteRow col) :=
  inferInstanceAs (Decidable (_ ≠ _))

/-- Body of the inner `Dxyn` loop for one column `col` of the current sprite
row: toggle the (wrapped) display cell and record a collision in `VF` when
the toggle turned the cell off. -/
def drawCol (x y row col spriteRow : Nat) (s : Chip8) : Chip8 :=
  if spriteBit spriteRow col then
    let a := (s.v x + col) % 64
    let b := (s.v y + row) % 32
    let s1 := setGfx s a b (s.gfx a b ^^^ 1)
    if s1.gfx a b = 0 then setV s1 0xf 1 else s1
  else s

/-- The inner `for col := uint8(0); col < 8; col++` loop, run for columns
`0, …, cnt-1` in order. -/
def drawCols (x y row spriteRow : Nat) : Nat → Chip8 → Chip8
  | 0, s => s
  | cnt + 1, s => drawCol x y row cnt spriteRow (drawCols x y row spriteRow cnt s)

/-- The outer `for row := uint8(0); row < n; row++` loop of `Dxyn`, with
`cnt` rows remaining starting at `row`.  Each iteration reads
`spriteRow := c8.mem[c8.i+uint16(row)]` (a `uint16` address addition,
bounds-checked like every memory access). -/
def drawRows (x y : Nat) : Nat → Nat → Chip8 → Option Chip8
  | _, 0, s => some s
  | row, cnt + 1, s =>
    match memRead s ((s.i + row) % 0x10000) with
    | some spriteRow => drawRows x y (row + 1) cnt (drawCols x y row spriteRow 8 s)
    | none => none

/-- The whole `Dxyn` body before `c8.Draw = true`: `c8.v[0xf] = 0` followed
by the row loop. -/
def execDraw (x y n : Nat) (s : Chip8) : Option Chip8 :=
  drawRows x y 0 n (setV s 0xf 0)

/-- `Fx55`: `for i := uint8(0); i < x+1; i++ { c8.mem[c8.i+uint16(i)] = c8.v[i] }`,
with `cnt` iterations remaining and loop counter `k`. -/
def storeRegs : Nat → Nat → Chip8 → Option Chip8
  | _, 0, s => some s
  | k, cnt + 1, s =>
    match memWrite s ((s.i + k) % 0x10000) (s.v k) with
    | some s1 => storeRegs (k + 1) cnt s1
    | none => none

/-- `Fx65`: `for i := uint8(0); i < x+1; i++ { c8.v[i] = c8.mem[c8.i+uint16(i)] }`. -/
def loadRegs : Nat → Nat → Chip8 → Option Chip8
  | _, 0, s => some s
  | k, cnt + 1, s =>
    match memRead s ((s.i + k) % 0x10000) with
    | some val => loadRegs (k + 1) cnt (setV s k val)
    | none => none

/-- The `case 0x8000` inner switch of `Cycle` (opcodes `8xy0`–`8xy7`, `8xyE`),
including the shared `c8.incPc(false)` that follows it.  Note line 204 of the
source: `c8.v[0xf] = (x & 0x80) >> 7` uses the register index `x`, not
`c8.v[x]`. -/
def execAlu (op : Nat) (s : Chip8) : Outcome :=
  let x := (op &&& 0xf00) >>> 8
  let y := (op &&& 0xf0) >>> 4
  if op &&& 0xf = 0x0 then
    finish (incPc (setV s x (s.v y)) false)
  else if op &&& 0xf = 0x1 then
    finish (incPc (setV s x (s.v x ||| s.v y)) false)
  else if op &&& 0xf = 0x2 then
    finish (incPc (setV s x (s.v x &&& s.v y)) false)
  else if op &&& 0xf = 0x3 then
    finish (incPc (setV s x (s.v x ^^^ s.v y)) false)
  else if op &&& 0xf = 0x4 then
    let s1 := setV s 0xf (if s.v y > 0xff - s.v x then 1 else 0)
    finish (incPc (setV s1 x ((s1.v x + s1.v y) % 0x100)) false)
  else if op &&& 0xf = 0x5 then
    let s1 := setV s 0xf (if s.v x > s.v y then 1 else 0)
    finish (incPc (setV s1 x ((0x100 + s1.v x - s1.v y) % 0x100)) false)
  else if op &&& 0xf = 0x6 then
    let s1 := setV s 0xf (s.v x &&& 0x1)
    finish (incPc (setV s1 x (s1.v x >>> 1)) false)
  else if op &&& 0xf = 0x7 then
    let s1 := setV s 0xf (if s.v y > s.v x then 1 else 0)
    finish (incPc (setV s1 x ((0x100 + s1.v y - s1.v x) % 0x100)) false)
  else if op &&& 0xf = 0xe then
    let s1 := setV s 0xf ((x &&& 0x80) >>> 7)
    finish (incPc (setV s1 x ((s1.v x <<< 1) % 0x100)) false)
  else Outcome.err (Err.unknownOpcode op) s

/-- The `case 0xf000` inner switch of `Cycle` (opcodes `Fx07`–`Fx65`),
including the shared `c8.incPc(false)` that follows it.  The `Fx29` range
check returns its error before any state change; `Fx0A` with no key pressed
busy-waits forever (`Outcome.blocked`). -/
def execFx (op : Nat) (s : Chip8) : Outcome :=
  let x := (op &&& 0xf00) >>> 8
  if op &&& 0xff = 0x7 then
    finish (incPc (setV s x s.dt) false)
  else if op &&& 0xff = 0xa then
    match findKeyFrom s 0 0x10 with
    | some k => finish (incPc (setV s x k) false)
    | none => Outcome.blocked
  else if op &&& 0xff = 0x15 then
    finish (incPc { s with dt := s.v x } false)
  else if op &&& 0xff = 0x18 then
    finish (incPc { s with st := s.v x } false)
  else if op &&& 0xff = 0x1e then
    finish (incPc { s with i := (s.i + s.v x) % 0x10000 } false)
  else if op &&& 0xff = 0x29 then
    if s.v x > 0xf then Outcome.err (Err.invalidDigit (s.v x)) s
    else finish (incPc { s with i := s.v x * 5 } false)
  else if op &&& 0xff = 0x33 then
    match memWrite s s.i (s.v x / 100) with
    | some s1 =>
      match memWrite s1 ((s1.i + 1) % 0x10000) ((s1.v x % 100) / 10) with
      | some s2 =>
        match memWrite s2 ((s2.i + 2) % 0x10000) (s2.v x % 10) with
        | some s3 => finish (incPc s3 false)
        | none => Outcome.panic
      | none => Outcome.panic
    | none => Outcome.panic
  else if op &&& 0xff = 0x55 then
    match storeRegs 0 (x + 1) s with
    | some s1 => finish (incPc s1 false)
    | none => Outcome.panic
  else if op &&& 0xff = 0x65 then
    match loadRegs 0 (x + 1) s with
    | some s1 => finish (incPc s1 false)
    | none => Outcome.panic
  else Outcome.err (Err.unknownOpcode op) s

/-- The `case 0x0000` block: `00E0` (clear display), `00EE` (return), other
`0nnn` unknown; the first two share the trailing `c8.incPc(false)`. -/
def exec0 (op : Nat) (s : Chip8) : Outcome :=
  if op &&& 0xff = 0xe0 then
    finish (incPc { s with gfx := fun _ _ => 0, draw := true } false)
  else if op &&& 0xff = 0xee then
    match stackRead s ((s.sp + 0xff) % 0x100) with
    | some ret => finish (incPc { s with sp := (s.sp + 0xff) % 0x100, pc := ret } false)
    | none => Outcome.panic
  else Outcome.err (Err.unknownOpcode op) s

/-- `1nnn`: jump. -/
def exec1 (op : Nat) (s : Chip8) : Outcome :=
  finish { s with pc := op &&& 0xfff }

/-- `2nnn`: call — push the current `pc`, bump `sp` (`uint8`), jump. -/
def exec2 (op : Nat) (s : Chip8) : Outcome :=
  match stackWrite s s.sp s.pc with
  | some s1 => finish { s1 with sp := (s1.sp + 1) % 0x100, pc := op &&& 0xfff }
  | none => Outcome.panic

/-- `3xkk`: skip if `Vx == kk`. -/
def exec3 (op : Nat) (s : Chip8) : Outcome :=
  finish (incPc s (s.v ((op &&& 0xf00) >>> 8) == (op &&& 0xff)))

/-- `4xkk`: skip if `Vx != kk`. -/
def exec4 (op : Nat) (s : Chip8) : Outcome :=
  finish (incPc s (s.v ((op &&& 0xf00) >>> 8) != (op &&& 0xff)))

/-- `case 0x5000`: `5xy0` skip if `Vx == Vy`, otherwise unknown. -/
def exec5 (op : Nat) (s : Chip8) : Outcome :=
  if op &&& 0xf = 0x0 then
    finish (incPc s (s.v ((op &&& 0xf00) >>> 8) == s.v ((op &&& 0xf0) >>> 4)))
  else Outcome.err (Err.unknownOpcode op) s

/-- `6xkk`: `Vx := kk`. -/
def exec6 (op : Nat) (s : Chip8) : Outcome :=
  finish (incPc (setV s ((op &&& 0xf00) >>> 8) (op &&& 0xff)) false)

/-- `7xkk`: `Vx += kk` (`uint8` wraparound, no flag). -/
def exec7 (op : Nat) (s : Chip8) : Outcome :=
  finish (incPc (setV s ((op &&& 0xf00) >>> 8)
    ((s.v ((op &&& 0xf00) >>> 8) + (op &&& 0xff)) % 0x100)) false)

/-- `case 0x9000`: `9xy0` skip if `Vx != Vy`, otherwise unknown. -/
def exec9 (op : Nat) (s : Chip8) : Outcome :=
  if op &&& 0xf = 0x0 then
    finish (incPc s (s.v ((op &&& 0xf00) >>> 8) != s.v ((op &&& 0xf0) >>> 4)))
  else Outcome.err (Err.unknownOpcode op) s

/-- `Annn`: `I := nnn`. -/
def execA (op : Nat) (s : Chip8) : Outcome :=
  finish (incPc { s with i := op &&& 0xfff } false)

/-- `Bnnn`: `PC := nnn + V0` (`uint16`). -/
def execB (op : Nat) (s : Chip8) : Outcome :=
  finish { s with pc := ((op &&& 0xfff) + s.v 0) % 0x10000 }

/-- `Cxkk`: `Vx := kk & random byte`. -/
def execC (op rnd : Nat) (s : Chip8) : Outcome :=
  finish (incPc (setV s ((op &&& 0xf00) >>> 8) ((op &&& 0xff) &&& (rnd % 0x100))) false)

/-- `Dxyn`: run the sprite loops, then `c8.Draw = true` and `incPc`. -/
def execD (op : Nat) (s : Chip8) : Outcome :=
  match execDraw ((op &&& 0xf00) >>> 8) ((op &&& 0xf0) >>> 4) (op &&& 0xf) s with
  | some s1 => finish (incPc { s1 with draw := true } false)
  | none => Outcome.panic

/-- `case 0xe000`: `Ex9E`/`ExA1` skip on keypad state `Key[Vx]`, otherwise
unknown. -/
def execE (op : Nat) (s : Chip8) : Outcome :=
  if op &&& 0xff = 0x9e then
    match keyRead s (s.v ((op &&& 0xf00) >>> 8)) with
    | some pressed => finish (incPc s pressed)
    | none => Outcome.panic
  else if op &&& 0xff = 0xa1 then
    match keyRead s (s.v ((op &&& 0xf00) >>> 8)) with
    | some pressed => finish (incPc s (!pressed))
    | none => Outcome.panic
  else Outcome.err (Err.unknownOpcode op) s

/-- The big `switch op & 0xf000` of `Cycle`, applied to the state after
`c8.Draw = false`; each case block is its own definition above. -/
def execOp (op rnd : Nat) (s : Chip8) : Outcome :=
  if op &&& 0xf000 = 0x0000 then exec0 op s
  else if op &&& 0xf000 = 0x1000 then exec1 op s
  else if op &&& 0xf000 = 0x2000 then exec2 op s
  else if op &&& 0xf000 = 0x3000 then exec3 op s
  else if op &&& 0xf000 = 0x4000 then exec4 op s
  else if op &&& 0xf000 = 0x5000 then exec5 op s
  else if op &&& 0xf000 = 0x6000 then exec6 op s
  else if op &&& 0xf000 = 0x7000 then exec7 op s
  else if op &&& 0xf000 = 0x8000 then execAlu op s
  else if op &&& 0xf000 = 0x9000 then exec9 op s
  else if op &&& 0xf000 = 0xa000 then execA op s
  else if op &&& 0xf000 = 0xb000 then execB op s
  else if op &&& 0xf000 = 0xc000 then execC op rnd s
  else if op &&& 0xf000 = 0xd000 then execD op s
  else if op &&& 0xf000 = 0xe000 then execE op s
  else execFx op s

/-- The 16-bit big-endian opcode fetch of `Cycle`:
`op := (uint16(c8.mem[c8.pc]) << 8) | uint16(c8.mem[c8.pc+1])` (the `+1` is
a `uint16` addition). -/
def fetchOp (s : Chip8) : Nat :=
  (s.mem s.pc <<< 8) ||| s.mem ((s.pc + 1) % 0x10000)

/-- `func (c8 *Chip8) Cycle(waitForInput func()) error`: fetch the opcode,
clear the redraw flag, and dispatch.  `rnd` models the one `rand.Intn(0x100)`
draw consumed by a `Cxkk` instruction. -/
def cycle (s0 : Chip8) (rnd : Nat) : Outcome :=
  match memRead s0 s0.pc, memRead s0 ((s0.pc + 1) % 0x10000) with
  | some _, some _ => execOp (fetchOp s0) rnd { s0 with draw := false }
  | _, _ => Outcome.panic

/-- `const maxRomSize = 0xfff - 0x200 + 1`. -/
def maxRomSize : Nat := 0xfff - 0x200 + 1

/-- `var fontset = [...]uint8{...}`: the 16 five-byte digit glyphs. -/
def fontset : List Nat :=
  [0xf0, 0x90, 0x90, 0x90, 0xf0,
   0x20, 0x60, 0x20, 0x20, 0x70,
   0xf0, 0x10, 0xf0, 0x80, 0xf0,
   0xf0, 0x10, 0xf0, 0x10, 0xf0,
   0x90, 0x90, 0xf0, 0x10, 0x10,
   0xf0, 0x80, 0xf0, 0x10, 0xf0,
   0xf0, 0x80, 0xf0, 0x90, 0xf0,
   0xf0, 0x10, 0x20, 0x40, 0x40,
   0xf0, 0x90, 0xf0, 0x90, 0xf0,
   0xf0, 0x90, 0xf0, 0x10, 0xf0,
   0xf0, 0x90, 0xf0, 0x90, 0x90,
   0xe0, 0x90, 0xe0, 0x90, 0xe0,
   0xf0, 0x80, 0x80, 0x80, 0xf0,
   0xe0, 0x90, 0x90, 0x90, 0xe0,
   0xf0, 0x80, 0xf0, 0x80, 0xf0,
   0xf0, 0x80, 0xf0, 0x80, 0x80]

/-- Store a list of bytes into the memory function at consecutive addresses
starting at `a` (the copy loops of `New` and `LoadRom`). -/
def storeList : (Nat → Nat) → Nat → List Nat → (Nat → Nat)
  | m, _, [] => m
  | m, a, b :: rest => storeList (fun k => if k = a then b else m k) (a + 1) rest

/-- `func New() *Chip8`: zeroed state, fontset copied to the bottom of
memory, `pc = 0x200`. -/
def Chip8.new : Chip8 :=
  { gfx := fun _ _ => 0
    key := fun _ => false
    draw := false
    mem := storeList (fun _ => 0) 0 fontset
    v := fun _ => 0
    stack := fun _ => 0
    i := 0
    pc := 0x200
    sp := 0
    dt := 0
    st := 0 }

/-- `func (c8 *Chip8) LoadRom(romPath string) error`, modelled on the byte
contents of the ROM file.  `rom.Read(c8.mem[0x200:])` is a single read into
a slice of length `0x1000 - 0x200 = 3584`: Go's `Read` fills at most
`len(p)` bytes, and for a regular file one call returns
`min(fileSize, 3584)` bytes.  Only afterwards does the code compare
`bytesRead > maxRomSize`. -/
def loadRom (bytes : List Nat) (s : Chip8) : Except String Chip8 :=
  let bytesRead := min bytes.length (0x1000 - 0x200)
  let s2 := { s with mem := storeList s.mem 0x200 (bytes.take bytesRead) }
  if bytesRead > maxRomSize then Except.error "ROM file too big" else Except.ok s2

def exceptOk : Except String Chip8 → Bool
  | .ok _ => true
  | _ => false

/-- Convenience projection used by concrete counterexamples and witnesses:
the machine state after a successful `cycle`, or the input state otherwise. -/
def stepOk (s : Chip8) (rnd : Nat) : Chip8 :=
  match cycle s rnd with
  | Outcome.ok s2 => s2
  | _ => s

/-! ### Projection lemmas for the state helpers -/

@[simp] theorem setV_v (s : Chip8) (idx val k : Nat) :
    (setV s idx val).v k = if k = idx then val else s.v k := rfl

@[simp] theorem setV_gfx (s : Chip8) (idx val : Nat) : (setV s idx val).gfx = s.gfx := rfl
@[simp] theorem setV_mem (s : Chip8) (idx val : Nat) : (setV s idx val).mem = s.mem := rfl
@[simp] theorem setV_i (s : Chip8) (idx val : Nat) : (setV s idx val).i = s.i := rfl
@[simp] theorem setV_pc (s : Chip8) (idx val : Nat) : (setV s idx val).pc = s.pc := rfl
@[simp] theorem setV_sp (s : Chip8) (idx val : Nat) : (setV s idx val).sp = s.sp := rfl
@[simp] theorem setV_stack (s : Chip8) (idx val : Nat) : (setV s idx val).stack = s.stack := rfl
@[simp] theorem setV_dt (s : Chip8) (idx val : Nat) : (setV s idx val).dt = s.dt := rfl
@[simp] theorem setV_st (s : Chip8) (idx val : Nat) : (setV s idx val).st = s.st := rfl
@[simp] theorem setV_draw (s : Chip8) (idx val : Nat) : (setV s idx val).draw = s.draw := rfl
@[simp] theorem setV_key (s : Chip8) (idx val : Nat) : (setV s idx val).key = s.key := rfl

@[simp] theorem setGfx_gfx (s : Chip8) (a b val p q : Nat) :
    (setGfx s a b val).gfx p q =
      if p = a ∧ q = b then val else s.gfx p q := by
  simp only [setGfx]
  by_cases hp : p = a <;> by_cases hq : q = b <;> simp [hp, hq]

@[simp] theorem setGfx_v (s : Chip8) (a b val : Nat) : (setGfx s a b val).v = s.v := rfl
@[simp] theorem setGfx_mem (s : Chip8) (a b val : Nat) : (setGfx s a b val).mem = s.mem := rfl
@[simp] theorem setGfx_i (s : Chip8) (a b val : Nat) : (setGfx s a b val).i = s.i := rfl
@[simp] theorem setGfx_pc (s : Chip8) (a b val : Nat) : (setGfx s a b val).pc = s.pc := rfl
@[simp] theorem setGfx_sp (s : Chip8) (a b val : Nat) : (setGfx s a b val).sp = s.sp := rfl
@[simp] theorem setGfx_stack (s : Chip8) (a b val : Nat) :
    (setGfx s a b val).stack = s.stack := rfl
@[simp] theorem setGfx_dt (s : Chip8) (a b val : Nat) : (setGfx s a b val).dt = s.dt := rfl
@[simp] theorem setGfx_st (s : Chip8) (a b val : Nat) : (setGfx s a b val).st = s.st := rfl
@[simp] theorem setGfx_draw (s : Chip8) (a b val : Nat) : (setGfx s a b val).draw = s.draw := rfl
@[simp] theorem setGfx_key (s : Chip8) (a b val : Nat) : (setGfx s a b val).key = s.key := rfl

@[simp] theorem incPc_pc (s : Chip8) (b : Bool) :
    (incPc s b).pc = if b then (s.pc + 4) % 0x10000 else (s.pc + 2) % 0x10000 := by
  cases b <;> rfl

@[simp] theorem incPc_gfx (s : Chip8) (b : Bool) : (incPc s b).gfx = s.gfx := by cases b <;> rfl
@[simp] theorem incPc_v (s : Chip8) (b : Bool) : (incPc s b).v = s.v := by cases b <;> rfl
@[simp] theorem incPc_mem (s : Chip8) (b : Bool) : (incPc s b).mem = s.mem := by cases b <;> rfl
@[simp] theorem incPc_i (s : Chip8) (b : Bool) : (incPc s b).i = s.i := by cases b <;> rfl
@[simp] theorem incPc_sp (s : Chip8) (b : Bool) : (incPc s b).sp = s.sp := by cases b <;> rfl
@[simp] theorem incPc_stack (s : Chip8) (b : Bool) : (incPc s b).stack = s.stack := by
  cases b <;> rfl
@[simp] theorem incPc_dt (s : Chip8) (b : Bool) : (incPc s b).dt = s.dt := by cases b <;> rfl
@[simp] theorem incPc_st (s : Chip8) (b : Bool) : (incPc s b).st = s.st := by cases b <;> rfl
@[simp] theorem incPc_draw (s : Chip8) (b : Bool) : (incPc s b).draw = s.draw := by
  cases b <;> rfl
@[simp] theorem incPc_key (s : Chip8) (b : Bool) : (incPc s b).key = s.key := by cases b <;> rfl

@[simp] theorem tickTimers_gfx (s : Chip8) : (tickTimers s).gfx = s.gfx := by
  simp only [tickTimers]; split <;> split <;> rfl
@[simp] theorem tickTimers_v (s : Chip8) : (tickTimers s).v = s.v := by
  simp only [tickTimers]; split <;> split <;> rfl
@[simp] theorem tickTimers_mem (s : Chip8) : (tickTimers s).mem = s.mem := by
  simp only [tickTimers]; split <;> split <;> rfl
@[simp] theorem tickTimers_i (s : Chip8) : (tickTimers s).i = s.i := by
  simp only [tickTimers]; split <;> split <;> rfl
@[simp] theorem tickTimers_pc (s : Chip8) : (tickTimers s).pc = s.pc := by
  simp only [tickTimers]; split <;> split <;> rfl
@[simp] theorem tickTimers_sp (s : Chip8) : (tickTimers s).sp = s.sp := by
  simp only [tickTimers]; split <;> split <;> rfl
@[simp] theorem tickTimers_stack (s : Chip8) : (tickTimers s).stack = s.stack := by
  simp only [tickTimers]; split <;> split <;> rfl
@[simp] theorem tickTimers_draw (s : Chip8) : (tickTimers s).draw = s.draw := by
  simp only [tickTimers]; split <;> split <;> rfl
@[simp] theorem tickTimers_key (s : Chip8) : (tickTimers s).key = s.key := by
  simp only [tickTimers]; split <;> split <;> rfl

theorem memRead_lt (s : Chip8) (a : Nat) (h : a < 0x1000) :
    memRead s a = some (s.mem a) := by simp [memRead, h]

theorem memWrite_lt (s : Chip8) (a val : Nat) (h : a < 0x1000) :
    memWrite s a val = some { s with mem := fun k => if k = a then val else s.mem k } := by
  simp [memWrite, h]

theorem stackRead_lt (s : Chip8) (idx : Nat) (h : idx < 0x10) :
    stackRead s idx = some (s.stack idx) := by simp [stackRead, h]

theorem stackWrite_lt (s : Chip8) (idx val : Nat) (h : idx < 0x10) :
    stackWrite s idx val =
      some { s with stack := fun k => if k = idx then val else s.stack k } := by
  simp [stackWrite, h]

theorem keyRead_lt (s : Chip8) (idx : Nat) (h : idx < 0x10) :
    keyRead s idx = some (s.key idx) := by simp [keyRead, h]

/-! ### Opcode field facts -/

theorem and_f00_shr_le (op : Nat) : (op &&& 0xf00) >>> 8 ≤ 0xf := by
  have h1 : op &&& 0xf00 ≤ 0xf00 := Nat.and_le_right
  have h2 : (op &&& 0xf00) >>> 8 = (op &&& 0xf00) / 256 := by
    simp [Nat.shiftRight_eq_div_pow]
  omega

theorem and_f0_shr_le (op : Nat) : (op &&& 0xf0) >>> 4 ≤ 0xf := by
  have h1 : op &&& 0xf0 ≤ 0xf0 := Nat.and_le_right
  have h2 : (op &&& 0xf0) >>> 4 = (op &&& 0xf0) / 16 := by
    simp [Nat.shiftRight_eq_div_pow]
  omega

theorem and_f_le (op : Nat) : op &&& 0xf ≤ 0xf := Nat.and_le_right

theorem nibble_and_80 (x : Nat) (h : x ≤ 0xf) : (x &&& 0x80) >>> 7 = 0 := by
  interval_cases x <;> rfl

/-! ### Fetch reduction -/

theorem cycle_eq_execOp (s : Chip8) (rnd : Nat) (h : s.pc + 1 < 0x1000) :
    cycle s rnd = execOp (fetchOp s) rnd { s with draw := false } := by
  have h1 : (s.pc + 1) % 0x10000 = s.pc + 1 := Nat.mod_eq_of_lt (by omega)
  unfold cycle
  rw [h1, memRead_lt _ _ (by omega), memRead_lt _ _ (by omega)]

/-! ### Concrete machine states for counterexamples and witnesses -/

/-- An all-zero machine with `pc = 0x200`, used as the template for the
concrete states below. -/
def baseState : Chip8 :=
  { gfx := fun _ _ => 0
    key := fun _ => false
    draw := false
    mem := fun _ => 0
    v := fun _ => 0
    stack := fun _ => 0
    i := 0
    pc := 0x200
    sp := 0
    dt := 0
    st := 0 }

/-- Memory that is zero except for a two-byte opcode at `0x200`. -/
def opMem (b0 b1 : Nat) : Nat → Nat :=
  fun a => if a = 0x200 then b0 else if a = 0x201 then b1 else 0

/-- State about to execute the undefined opcode `0x5001` (the `5xy` variant
the spec itself lists as unknown), with the redraw flag initially set. -/
def exUnknown : Chip8 := { baseState with mem := opMem 0x50 0x01, draw := true }

/-- State about to execute `00E0` (clear screen). -/
def exCls : Chip8 := { baseState with mem := opMem 0x00 0xe0 }

/-! ### C1 -/

/-- Helper: the state delivered by a successful `loadRom`. -/
def romOk (e : Except String Chip8) : Chip8 :=
  match e with
  | .ok s => s
  | .error _ => Chip8.new

/-- C1: the claim is violated by the code.  The `bytesRead > maxRomSize`
branch of `LoadRom` is dead code: `rom.Read(c8.mem[0x200:])` fills at most
the slice length `0x1000 - 0x200 = 3584 = maxRomSize` bytes, so the
comparison never succeeds and `LoadRom` returns `nil` for every file —
also for one larger than 3584 bytes, whose first 3584 bytes have then
already been copied into memory at `0x200` (so the state is not left
unchanged either). -/
theorem loadRom_never_errors (bytes : List Nat) (s : Chip8) :
    loadRom bytes s =
      Except.ok
        { s with mem := storeList s.mem 0x200 (bytes.take (min bytes.length 0xe00)) } := by
  unfold loadRom maxRomSize
  rw [if_neg]
  have := Nat.min_le_right bytes.length (0x1000 - 0x200)
  omega

/-! ### C9 -/

set_option maxRecDepth 4096
set_option maxHeartbeats 1000000

theorem memWrite_some {s : Chip8} {a val : Nat} {s1 : Chip8}
    (h : memWrite s a val = some s1) :
    s1 = { s with mem := fun k => if k = a then val else s.mem k } := by
  simp only [memWrite] at h
  split at h
  · cases h; rfl
  · exact Option.noConfusion h

theorem memWrite_draw {s : Chip8} {a val : Nat} {s1 : Chip8}
    (h : memWrite s a val = some s1) : s1.draw = s.draw := by
  rw [memWrite_some h]

theorem storeRegs_some_fields :
    ∀ cnt k, ∀ s s1 : Chip8, storeRegs k cnt s = some s1 →
      s1.gfx = s.gfx ∧ s1.key = s.key ∧ s1.draw = s.draw ∧ s1.v = s.v ∧
      s1.stack = s.stack ∧ s1.i = s.i ∧ s1.pc = s.pc ∧ s1.sp = s.sp ∧
      s1.dt = s.dt ∧ s1.st = s.st
  | 0, k, s, s1, h => by
      simp only [storeRegs] at h
      cases h
      exact ⟨rfl, rfl, rfl, rfl, rfl, rfl, rfl, rfl, rfl, rfl⟩
  | cnt + 1, k, s, s1, h => by
      simp only [storeRegs] at h
      rcases hw : memWrite s ((s.i + k) % 0x10000) (s.v k) with _ | t
      · rw [hw] at h; exact Option.noConfusion h
      · simp only [hw] at h
        have ht := memWrite_some hw
        have IH := storeRegs_some_fields cnt (k + 1) t s1 h
        subst ht
        simpa using IH

theorem loadRegs_some_fields :
    ∀ cnt k, ∀ s s1 : Chip8, loadRegs k cnt s = some s1 →
      s1.gfx = s.gfx ∧ s1.key = s.key ∧ s1.draw = s.draw ∧ s1.mem = s.mem ∧
      s1.stack = s.stack ∧ s1.i = s.i ∧ s1.pc = s.pc ∧ s1.sp = s.sp ∧
      s1.dt = s.dt ∧ s1.st = s.st
  | 0, k, s, s1, h => by
      simp only [loadRegs] at h
      cases h
      exact ⟨rfl, rfl, rfl, rfl, rfl, rfl, rfl, rfl, rfl, rfl⟩
  | cnt + 1, k, s, s1, h => by
      simp only [loadRegs] at h
      rcases hr : memRead s ((s.i + k) % 0x10000) with _ | val
      · rw [hr] at h; exact Option.noConfusion h
      · simp only [hr] at h
        have IH := loadRegs_some_fields cnt (k + 1) (setV s k val) s1 h
        simpa using IH

theorem execAlu_err_state (op : Nat) (s : Chip8) (e : Err) (s2 : Chip8)
    (h : execAlu op s = Outcome.err e s2) : s2 = s := by
  simp only [execAlu, finish] at h
  repeat' split at h
  all_goals first
    | exact Outcome.noConfusion h
    | (cases h; rfl)

theorem execFx_err_state (op : Nat) (s : Chip8) (e : Err) (s2 : Chip8)
    (h : execFx op s = Outcome.err e s2) : s2 = s := by
  simp only [execFx, finish] at h
  repeat' split at h
  all_goals first
    | exact Outcome.noConfusion h
    | (cases h; rfl)

theorem exec0_err_state (op : Nat) (s : Chip8) (e : Err) (s2 : Chip8)
    (h : exec0 op s = Outcome.err e s2) : s2 = s := by
  simp only [exec0, finish] at h
  repeat' split at h
  all_goals first
    | exact Outcome.noConfusion h
    | (cases h; rfl)

theorem exec5_err_state (op : Nat) (s : Chip8) (e : Err) (s2 : Chip8)
    (h : exec5 op s = Outcome.err e s2) : s2 = s := by
  simp only [exec5, finish] at h
  repeat' split at h
  all_goals first
    | exact Outcome.noConfusion h
    | (cases h; rfl)

theorem exec9_err_state (op : Nat) (s : Chip8) (e : Err) (s2 : Chip8)
    (h : exec9 op s = Outcome.err e s2) : s2 = s := by
  simp only [exec9, finish] at h
  repeat' split at h
  all_goals first
    | exact Outcome.noConfusion h
    | (cases h; rfl)

theorem execE_err_state (op : Nat) (s : Chip8) (e : Err) (s2 : Chip8)
    (h : execE op s = Outcome.err e s2) : s2 = s := by
  simp only [execE, finish] at h
  repeat' split at h
  all_goals first
    | exact Outcome.noConfusion h
    | (cases h; rfl)

theorem exec1_err_state (op : Nat) (s : Chip8) (e : Err) (s2 : Chip8)
    (h : exec1 op s = Outcome.err e s2) : s2 = s := by
  simp only [exec1, finish] at h
  exact Outcome.noConfusion h

theorem exec2_err_state (op : Nat) (s : Chip8) (e : Err) (s2 : Chip8)
    (h : exec2 op s = Outcome.err e s2) : s2 = s := by
  simp only [exec2, finish] at h
  repeat' split at h
  all_goals exact Outcome.noConfusion h

theorem exec3_err_state (op : Nat) (s : Chip8) (e : Err) (s2 : Chip8)
    (h : exec3 op s = Outcome.err e s2) : s2 = s := by
  simp only [exec3, finish] at h
  exact Outcome.noConfusion h

theorem exec4_err_state (op : Nat) (s : Chip8) (e : Err) (s2 : Chip8)
    (h : exec4 op s = Outcome.err e s2) : s2 = s := by
  simp only [exec4, finish] at h
  exact Outcome.noConfusion h

theorem exec6_err_state (op : Nat) (s : Chip8) (e : Err) (s2 : Chip8)
    (h : exec6 op s = Outcome.err e s2) : s2 = s := by
  simp only [exec6, finish] at h
  exact Outcome.noConfusion h

theorem exec7_err_state (op : Nat) (s : Chip8) (e : Err) (s2 : Chip8)
    (h : exec7 op s = Outcome.err e s2) : s2 = s := by
  simp only [exec7, finish] at h
  exact Outcome.noConfusion h

theorem execA_err_state (op : Nat) (s : Chip8) (e : Err) (s2 : Chip8)
    (h : execA op s = Outcome.err e s2) : s2 = s := by
  simp only [execA, finish] at h
  exact Outcome.noConfusion h

theorem execB_err_state (op : Nat) (s : Chip8) (e : Err) (s2 : Chip8)
    (h : execB op s = Outcome.err e s2) : s2 = s := by
  simp only [execB, finish] at h
  exact Outcome.noConfusion h

theorem execC_err_state (op rnd : Nat) (s : Chip8) (e : Err) (s2 : Chip8)
    (h : execC op rnd s = Outcome.err e s2) : s2 = s := by
  simp only [execC, finish] at h
  exact Outcome.noConfusion h

theorem execD_err_state (op : Nat) (s : Chip8) (e : Err) (s2 : Chip8)
    (h : execD op s = Outcome.err e s2) : s2 = s := by
  simp only [execD, finish] at h
  repeat' split at h
  all_goals exact Outcome.noConfusion h

/-- Both error returns inside the opcode switch (`goto Unknown` and the
`Fx29` range check) happen before any state mutation, so the state carried
by an error outcome is exactly the post-`c8.Draw = false` input state. -/
theorem execOp_err_state (op rnd : Nat) (s : Chip8) (e : Err) (s2 : Chip8)
    (h : execOp op rnd s = Outcome.err e s2) : s2 = s := by
  unfold execOp at h
  by_cases c0 : op &&& 0xf000 = 0x0000
  · rw [if_pos c0] at h; exact exec0_err_state _ _ _ _ h
  rw [if_neg c0] at h
  by_cases c1 : op &&& 0xf000 = 0x1000
  · rw [if_pos c1] at h; exact exec1_err_state _ _ _ _ h
  rw [if_neg c1] at h
  by_cases c2 : op &&& 0xf000 = 0x2000
  · rw [if_pos c2] at h; exact exec2_err_state _ _ _ _ h
  rw [if_neg c2] at h
  by_cases c3 : op &&& 0xf000 = 0x3000
  · rw [if_pos c3] at h; exact exec3_err_state _ _ _ _ h
  rw [if_neg c3] at h
  by_cases c4 : op &&& 0xf000 = 0x4000
  · rw [if_pos c4] at h; exact exec4_err_state _ _ _ _ h
  rw [if_neg c4] at h
  by_cases c5 : op &&& 0xf000 = 0x5000
  · rw [if_pos c5] at h; exact exec5_err_state _ _ _ _ h
  rw [if_neg c5] at h
  by_cases c6 : op &&& 0xf000 = 0x6000
  · rw [if_pos c6] at h; exact exec6_err_state _ _ _ _ h
  rw [if_neg c6] at h
  by_cases c7 : op &&& 0xf000 = 0x7000
  · rw [if_pos c7] at h; exact exec7_err_state _ _ _ _ h
  rw [if_neg c7] at h
  by_cases c8 : op &&& 0xf000 = 0x8000
  · rw [if_pos c8] at h; exact execAlu_err_state _ _ _ _ h
  rw [if_neg c8] at h
  by_cases c9 : op &&& 0xf000 = 0x9000
  · rw [if_pos c9] at h; exact exec9_err_state _ _ _ _ h
  rw [if_neg c9] at h
  by_cases ca : op &&& 0xf000 = 0xa000
  · rw [if_pos ca] at h; exact execA_err_state _ _ _ _ h
  rw [if_neg ca] at h
  by_cases cb : op &&& 0xf000 = 0xb000
  · rw [if_pos cb] at h; exact execB_err_state _ _ _ _ h
  rw [if_neg cb] at h
  by_cases cc : op &&& 0xf000 = 0xc000
  · rw [if_pos cc] at h; exact execC_err_state _ _ _ _ _ h
  rw [if_neg cc] at h
  by_cases cd : op &&& 0xf000 = 0xd000
  · rw [if_pos cd] at h; exact execD_err_state _ _ _ _ h
  rw [if_neg cd] at h
  by_cases ce : op &&& 0xf000 = 0xe000
  · rw [if_pos ce] at h; exact execE_err_state _ _ _ _ h
  rw [if_neg ce] at h
  exact execFx_err_state _ _ _ _ h

/-- C9: whenever `Cycle` returns an error, every component of the machine
state except the redraw flag is unchanged — registers, I, memory, stack,
stack pointer, display, keypad, PC (not advanced) and both timers (not
decremented) — and the redraw flag is left cleared, having been reset at
the top of the cycle. -/
theorem cycle_err_preserves (s : Chip8) (rnd : Nat) (e : Err) (s2 : Chip8)
    (h : cycle s rnd = Outcome.err e s2) :
    s2.gfx = s.gfx ∧ s2.key = s.key ∧ s2.mem = s.mem ∧ s2.v = s.v ∧
    s2.stack = s.stack ∧ s2.i = s.i ∧ s2.pc = s.pc ∧ s2.sp = s.sp ∧
    s2.dt = s.dt ∧ s2.st = s.st ∧ s2.draw = false := by
  unfold cycle at h
  repeat' split at h
  all_goals first
    | exact Outcome.noConfusion h
    | (have h2 := execOp_err_state _ _ _ _ _ h; subst h2;
       exact ⟨rfl, rfl, rfl, rfl, rfl, rfl, rfl, rfl, rfl, rfl, rfl⟩)

/-- Witness for C9 at the unknown opcode `0x5001` of the spec's test list,
starting from a state whose redraw flag is set. -/
theorem cycle_err_preserves_witness :
    ({ exUnknown with draw := false } : Chip8).gfx = exUnknown.gfx ∧
    ({ exUnknown with draw := false } : Chip8).key = exUnknown.key ∧
    ({ exUnknown with draw := false } : Chip8).mem = exUnknown.mem ∧
    ({ exUnknown with draw := false } : Chip8).v = exUnknown.v ∧
    ({ exUnknown with draw := false } : Chip8).stack = exUnknown.stack ∧
    ({ exUnknown with draw := false } : Chip8).i = exUnknown.i ∧
    ({ exUnknown with draw := false } : Chip8).pc = exUnknown.pc ∧
    ({ exUnknown with draw := false } : Chip8).sp = exUnknown.sp ∧
    ({ exUnknown with draw := false } : Chip8).dt = exUnknown.dt ∧
    ({ exUnknown with draw := false } : Chip8).st = exUnknown.st ∧
    ({ exUnknown with draw := false } : Chip8).draw = false :=
  cycle_err_preserves exUnknown 0 (Err.unknownOpcode 0x5001)
    { exUnknown with draw := false } rfl

/-! ### C10 -/

/-- Inside the opcode switch, `c8.Draw` is set only by the `00E0` handler
and the `Dxyn` handler (the latter unconditionally), and no other handler
touches it. -/
theorem execAlu_draw (op : Nat) (s s' : Chip8) (h : execAlu op s = Outcome.ok s') :
    s'.draw = s.draw := by
  simp only [execAlu, finish] at h
  repeat' split at h
  all_goals first
    | exact Outcome.noConfusion h
    | (cases h; simp)

theorem execFx_draw (op : Nat) (s s' : Chip8) (h : execFx op s = Outcome.ok s') :
    s'.draw = s.draw := by
  simp only [execFx] at h
  by_cases d7 : op &&& 0xff = 0x7
  · rw [if_pos d7] at h; simp only [finish] at h; cases h; simp
  rw [if_neg d7] at h
  by_cases da : op &&& 0xff = 0xa
  · rw [if_pos da] at h
    rcases hk : findKeyFrom s 0 0x10 with _ | k
    · rw [hk] at h; exact Outcome.noConfusion h
    · simp only [hk, finish] at h; cases h; simp
  rw [if_neg da] at h
  by_cases d15 : op &&& 0xff = 0x15
  · rw [if_pos d15] at h; simp only [finish] at h; cases h; simp
  rw [if_neg d15] at h
  by_cases d18 : op &&& 0xff = 0x18
  · rw [if_pos d18] at h; simp only [finish] at h; cases h; simp
  rw [if_neg d18] at h
  by_cases d1e : op &&& 0xff = 0x1e
  · rw [if_pos d1e] at h; simp only [finish] at h; cases h; simp
  rw [if_neg d1e] at h
  by_cases d29 : op &&& 0xff = 0x29
  · rw [if_pos d29] at h
    split at h
    · exact Outcome.noConfusion h
    · simp only [finish] at h; cases h; simp
  rw [if_neg d29] at h
  by_cases d33 : op &&& 0xff = 0x33
  · rw [if_pos d33] at h
    rcases h1 : memWrite s s.i (s.v ((op &&& 0xf00) >>> 8) / 100) with _ | t1
    · rw [h1] at h; exact Outcome.noConfusion h
    simp only [h1] at h
    rcases h2 : memWrite t1 ((t1.i + 1) % 0x10000) ((t1.v ((op &&& 0xf00) >>> 8) % 100) / 10)
      with _ | t2
    · rw [h2] at h; exact Outcome.noConfusion h
    simp only [h2] at h
    rcases h3 : memWrite t2 ((t2.i + 2) % 0x10000) (t2.v ((op &&& 0xf00) >>> 8) % 10)
      with _ | t3
    · rw [h3] at h; exact Outcome.noConfusion h
    simp only [h3, finish] at h
    cases h
    simp [memWrite_draw h3, memWrite_draw h2, memWrite_draw h1]
  rw [if_neg d33] at h
  by_cases d55 : op &&& 0xff = 0x55
  · rw [if_pos d55] at h
    rcases h1 : storeRegs 0 ((op &&& 0xf00) >>> 8 + 1) s with _ | t1
    · rw [h1] at h; exact Outcome.noConfusion h
    simp only [h1, finish] at h
    cases h
    simp [(storeRegs_some_fields _ _ _ _ h1).2.2.1]
  rw [if_neg d55] at h
  by_cases d65 : op &&& 0xff = 0x65
  · rw [if_pos d65] at h
    rcases h1 : loadRegs 0 ((op &&& 0xf00) >>> 8 + 1) s with _ | t1
    · rw [h1] at h; exact Outcome.noConfusion h
    simp only [h1, finish] at h
    cases h
    simp [(loadRegs_some_fields _ _ _ _ h1).2.2.1]
  rw [if_neg d65] at h
  exact Outcome.noConfusion h

theorem exec0_draw (op : Nat) (s s' : Chip8) (h : exec0 op s = Outcome.ok s') :
    (s'.draw = true ↔ (op &&& 0xff = 0xe0 ∨ s.draw = true)) := by
  simp only [exec0, finish] at h
  repeat' split at h
  all_goals first
    | exact Outcome.noConfusion h
    | (cases h; simp_all)

theorem execD_draw (op : Nat) (s s' : Chip8) (h : execD op s = Outcome.ok s') :
    s'.draw = true := by
  simp only [execD, finish] at h
  repeat' split at h
  all_goals first
    | exact Outcome.noConfusion h
    | (cases h; simp)

theorem exec1_draw (op : Nat) (s s' : Chip8) (h : exec1 op s = Outcome.ok s') :
    s'.draw = s.draw := by
  simp only [exec1, finish] at h
  cases h; simp

theorem exec2_draw (op : Nat) (s s' : Chip8) (h : exec2 op s = Outcome.ok s') :
    s'.draw = s.draw := by
  simp only [exec2, finish] at h
  rcases hw : stackWrite s s.sp s.pc with _ | t
  · rw [hw] at h; exact Outcome.noConfusion h
  · simp only [hw] at h
    cases h
    simp only [stackWrite] at hw
    split at hw
    · cases hw; simp
    · exact Option.noConfusion hw

theorem exec3_draw (op : Nat) (s s' : Chip8) (h : exec3 op s = Outcome.ok s') :
    s'.draw = s.draw := by
  simp only [exec3, finish] at h
  cases h; simp

theorem exec4_draw (op : Nat) (s s' : Chip8) (h : exec4 op s = Outcome.ok s') :
    s'.draw = s.draw := by
  simp only [exec4, finish] at h
  cases h; simp

theorem exec5_draw (op : Nat) (s s' : Chip8) (h : exec5 op s = Outcome.ok s') :
    s'.draw = s.draw := by
  simp only [exec5, finish] at h
  repeat' split at h
  all_goals first
    | exact Outcome.noConfusion h
    | (cases h; simp)

theorem exec6_draw (op : Nat) (s s' : Chip8) (h : exec6 op s = Outcome.ok s') :
    s'.draw = s.draw := by
  simp only [exec6, finish] at h
  cases h; simp

theorem exec7_draw (op : Nat) (s s' : Chip8) (h : exec7 op s = Outcome.ok s') :
    s'.draw = s.draw := by
  simp only [exec7, finish] at h
  cases h; simp

theorem exec9_draw (op : Nat) (s s' : Chip8) (h : exec9 op s = Outcome.ok s') :
    s'.draw = s.draw := by
  simp only [exec9, finish] at h
  repeat' split at h
  all_goals first
    | exact Outcome.noConfusion h
    | (cases h; simp)

theorem execA_draw (op : Nat) (s s' : Chip8) (h : execA op s = Outcome.ok s') :
    s'.draw = s.draw := by
  simp only [execA, finish] at h
  cases h; simp

theorem execB_draw (op : Nat) (s s' : Chip8) (h : execB op s = Outcome.ok s') :
    s'.draw = s.draw := by
  simp only [execB, finish] at h
  cases h; simp

theorem execC_draw (op rnd : Nat) (s s' : Chip8) (h : execC op rnd s = Outcome.ok s') :
    s'.draw = s.draw := by
  simp only [execC, finish] at h
  cases h; simp

theorem execE_draw (op : Nat) (s s' : Chip8) (h : execE op s = Outcome.ok s') :
    s'.draw = s.draw := by
  simp only [execE, finish] at h
  repeat' split at h
  all_goals first
    | exact Outcome.noConfusion h
    | (cases h; simp)

theorem execOp_draw_iff (op rnd : Nat) (s s' : Chip8) (hd : s.draw = false)
    (h : execOp op rnd s = Outcome.ok s') :
    (s'.draw = true ↔
      ((op &&& 0xf000 = 0x0000 ∧ op &&& 0xff = 0xe0) ∨ op &&& 0xf000 = 0xd000)) := by
  unfold execOp at h
  by_cases c0 : op &&& 0xf000 = 0x0000
  · rw [if_pos c0] at h
    rw [exec0_draw _ _ _ h, hd]
    simp [c0]
  rw [if_neg c0] at h
  by_cases c1 : op &&& 0xf000 = 0x1000
  · rw [if_pos c1] at h
    rw [exec1_draw _ _ _ h, hd]
    simp [c1, c0]
  rw [if_neg c1] at h
  by_cases c2 : op &&& 0xf000 = 0x2000
  · rw [if_pos c2] at h
    rw [exec2_draw _ _ _ h, hd]
    simp [c2, c0]
  rw [if_neg c2] at h
  by_cases c3 : op &&& 0xf000 = 0x3000
  · rw [if_pos c3] at h
    rw [exec3_draw _ _ _ h, hd]
    simp [c3, c0]
  rw [if_neg c3] at h
  by_cases c4 : op &&& 0xf000 = 0x4000
  · rw [if_pos c4] at h
    rw [exec4_draw _ _ _ h, hd]
    simp [c4, c0]
  rw [if_neg c4] at h
  by_cases c5 : op &&& 0xf000 = 0x5000
  · rw [if_pos c5] at h
    rw [exec5_draw _ _ _ h, hd]
    simp [c5, c0]
  rw [if_neg c5] at h
  by_cases c6 : op &&& 0xf000 = 0x6000
  · rw [if_pos c6] at h
    rw [exec6_draw _ _ _ h, hd]
    simp [c6, c0]
  rw [if_neg c6] at h
  by_cases c7 : op &&& 0xf000 = 0x7000
  · rw [if_pos c7] at h
    rw [exec7_draw _ _ _ h, hd]
    simp [c7, c0]
  rw [if_neg c7] at h
  by_cases c8 : op &&& 0xf000 = 0x8000
  · rw [if_pos c8] at h
    rw [execAlu_draw _ _ _ h, hd]
    simp [c8, c0]
  rw [if_neg c8] at h
  by_cases c9 : op &&& 0xf000 = 0x9000
  · rw [if_pos c9] at h
    rw [exec9_draw _ _ _ h, hd]
    simp [c9, c0]
  rw [if_neg c9] at h
  by_cases ca : op &&& 0xf000 = 0xa000
  · rw [if_pos ca] at h
    rw [execA_draw _ _ _ h, hd]
    simp [ca, c0]
  rw [if_neg ca] at h
  by_cases cb : op &&& 0xf000 = 0xb000
  · rw [if_pos cb] at h
    rw [execB_draw _ _ _ h, hd]
    simp [cb, c0]
  rw [if_neg cb] at h
  by_cases cc : op &&& 0xf000 = 0xc000
  · rw [if_pos cc] at h
    rw [execC_draw _ _ _ _ h, hd]
    simp [cc, c0]
  rw [if_neg cc] at h
  by_cases cd : op &&& 0xf000 = 0xd000
  · rw [if_pos cd] at h
    rw [execD_draw _ _ _ h]
    simp [cd]
  rw [if_neg cd] at h
  by_cases ce : op &&& 0xf000 = 0xe000
  · rw [if_pos ce] at h
    rw [execE_draw _ _ _ h, hd]
    simp [ce, c0]
  rw [if_neg ce] at h
  rw [execFx_draw _ _ _ h, hd]
  simp [c0, cd]

/-- C10: after a successful `Cycle`, the redraw flag is set iff the fetched
opcode dispatched to the clear-screen handler (high nibble 0, low byte
`0xE0`) or the sprite-draw handler (high nibble `0xD`).  `Dxyn` sets the
flag unconditionally — also for `n = 0` or an all-zero sprite, where no
pixel changes — so a set flag does not imply the display buffer changed. -/
theorem cycle_draw_iff (s : Chip8) (rnd : Nat) (s' : Chip8)
    (h : cycle s rnd = Outcome.ok s') :
    (s'.draw = true ↔
      ((fetchOp s &&& 0xf000 = 0x0000 ∧ fetchOp s &&& 0xff = 0xe0) ∨
        fetchOp s &&& 0xf000 = 0xd000)) := by
  unfold cycle at h
  repeat' split at h
  all_goals first
    | exact Outcome.noConfusion h
    | exact execOp_draw_iff _ rnd _ s' rfl h

/-- Witness for C10 at a concrete `00E0` instruction. -/
theorem cycle_draw_iff_witness :
    (stepOk exCls 0).draw = true ↔
      ((fetchOp exCls &&& 0xf000 = 0x0000 ∧ fetchOp exCls &&& 0xff = 0xe0) ∨
        fetchOp exCls &&& 0xf000 = 0xd000) :=
  cycle_draw_iff exCls 0 (stepOk exCls 0) rfl

/-! ### Branch selection lemmas for the main dispatch -/

theorem execOp_branch0 (op rnd : Nat) (s : Chip8) (h : op &&& 0xf000 = 0x0000) :
    execOp op rnd s = exec0 op s := by
  unfold execOp; rw [h]; norm_num

theorem execOp_branch1 (op rnd : Nat) (s : Chip8) (h : op &&& 0xf000 = 0x1000) :
    execOp op rnd s = exec1 op s := by
  unfold execOp; rw [h]; norm_num

theorem execOp_branch2 (op rnd : Nat) (s : Chip8) (h : op &&& 0xf000 = 0x2000) :
    execOp op rnd s = exec2 op s := by
  unfold execOp; rw [h]; norm_num

theorem execOp_branch3 (op rnd : Nat) (s : Chip8) (h : op &&& 0xf000 = 0x3000) :
    execOp op rnd s = exec3 op s := by
  unfold execOp; rw [h]; norm_num

theorem execOp_branch4 (op rnd : Nat) (s : Chip8) (h : op &&& 0xf000 = 0x4000) :
    execOp op rnd s = exec4 op s := by
  unfold execOp; rw [h]; norm_num

theorem execOp_branch5 (op rnd : Nat) (s : Chip8) (h : op &&& 0xf000 = 0x5000) :
    execOp op rnd s = exec5 op s := by
  unfold execOp; rw [h]; norm_num

theorem execOp_branch6 (op rnd : Nat) (s : Chip8) (h : op &&& 0xf000 = 0x6000) :
    execOp op rnd s = exec6 op s := by
  unfold execOp; rw [h]; norm_num

theorem execOp_branch7 (op rnd : Nat) (s : Chip8) (h : op &&& 0xf000 = 0x7000) :
    execOp op rnd s = exec7 op s := by
  unfold execOp; rw [h]; norm_num

theorem execOp_branch8 (op rnd : Nat) (s : Chip8) (h : op &&& 0xf000 = 0x8000) :
    execOp op rnd s = execAlu op s := by
  unfold execOp; rw [h]; norm_num

theorem execOp_branch9 (op rnd : Nat) (s : Chip8) (h : op &&& 0xf000 = 0x9000) :
    execOp op rnd s = exec9 op s := by
  unfold execOp; rw [h]; norm_num

theorem execOp_branchA (op rnd : Nat) (s : Chip8) (h : op &&& 0xf000 = 0xa000) :
    execOp op rnd s = execA op s := by
  unfold execOp; rw [h]; norm_num

theorem execOp_branchB (op rnd : Nat) (s : Chip8) (h : op &&& 0xf000 = 0xb000) :
    execOp op rnd s = execB op s := by
  unfold execOp; rw [h]; norm_num

theorem execOp_branchC (op rnd : Nat) (s : Chip8) (h : op &&& 0xf000 = 0xc000) :
    execOp op rnd s = execC op rnd s := by
  unfold execOp; rw [h]; norm_num

theorem execOp_branchD (op rnd : Nat) (s : Chip8) (h : op &&& 0xf000 = 0xd000) :
    execOp op rnd s = execD op s := by
  unfold execOp; rw [h]; norm_num

theorem execOp_branchE (op rnd : Nat) (s : Chip8) (h : op &&& 0xf000 = 0xe000) :
    execOp op rnd s = execE op s := by
  unfold execOp; rw [h]; norm_num

theorem execOp_branchF (op rnd : Nat) (s : Chip8) (h : op &&& 0xf000 = 0xf000) :
    execOp op rnd s = execFx op s := by
  unfold execOp; rw [h]; norm_num

/-! ### C7 -/

/-- C7 amended: for `x ≠ 0xF` and `y ≠ 0xF`, `8xy4` sets
`Vx := (Vx + Vy) mod 256` and `VF := 1` exactly when the unwrapped sum
exceeds 255, else `0`.  (When `x` or `y` is `0xF` the flag write, which the
code performs first, feeds the subsequent addition, so the claimed
postcondition fails; see the counterexample.) -/
theorem alu_add_carry (s : Chip8) (rnd x y : Nat)
    (hx : (fetchOp s &&& 0xf00) >>> 8 = x) (hy : (fetchOp s &&& 0xf0) >>> 4 = y)
    (hxf : x ≠ 0xf) (hyf : y ≠ 0xf)
    (hpc : s.pc + 1 < 0x1000)
    (h8 : fetchOp s &&& 0xf000 = 0x8000) (h4 : fetchOp s &&& 0xf = 0x4)
    (hbx : s.v x < 0x100) :
    ∃ s', cycle s rnd = Outcome.ok s' ∧
      s'.v x = (s.v x + s.v y) % 0x100 ∧
      s'.v 0xf = (if 0xff < s.v x + s.v y then 1 else 0) := by
  have hc : cycle s rnd = execAlu (fetchOp s) { s with draw := false } := by
    rw [cycle_eq_execOp s rnd hpc, execOp_branch8 _ _ _ h8]
  rw [hc]
  simp only [execAlu]
  rw [hx, hy, h4]
  norm_num [finish]
  have hcond : (0xff - s.v x < s.v y) = (0xff < s.v x + s.v y) := by
    rw [eq_iff_iff]; omega
  constructor
  · simp [hxf, hyf]
  · simp [hxf, hyf, Ne.symm hxf, hcond]

/-- Concrete `8F04` (x = 0xF): `VF = 200`, `V0 = 100`. -/
def exAddF : Chip8 :=
  { baseState with
    mem := opMem 0x8f 0x04
    v := fun k => if k = 15 then 200 else if k = 0 then 100 else 0 }

/-- C7 counterexample: with `x = 0xF` the code first writes the carry into
`VF` and then adds, leaving `VF = carry + V0 = 101`, which is neither
`(Vx + Vy) mod 256 = 44` nor the carry bit `1` demanded by the claim. -/
theorem alu_add_carry_counterexample :
    cycle exAddF 0 = Outcome.ok (stepOk exAddF 0) ∧
    (stepOk exAddF 0).v 15 = 101 ∧
    (exAddF.v 15 + exAddF.v 0) % 0x100 = 44 ∧
    (stepOk exAddF 0).v 15 ≠ (exAddF.v 15 + exAddF.v 0) % 0x100 := by
  exact ⟨rfl, rfl, rfl, by decide⟩

/-- Concrete `8014` with `V0 = 0xFF`, `V1 = 0x01` (the spec's overflow
test vector). -/
def exAdd : Chip8 :=
  { baseState with
    mem := opMem 0x80 0x14
    v := fun k => if k = 0 then 0xff else if k = 1 then 1 else 0 }

theorem alu_add_carry_witness :
    ∃ s', cycle exAdd 0 = Outcome.ok s' ∧
      s'.v 0 = (exAdd.v 0 + exAdd.v 1) % 0x100 ∧
      s'.v 0xf = (if 0xff < exAdd.v 0 + exAdd.v 1 then 1 else 0) :=
  alu_add_carry exAdd 0 0 1 (by decide) (by decide) (by decide) (by decide)
    (by decide) (by decide) (by decide) (by decide)

/-! ### C5 -/

/-- C5 amended: for `x ≠ 0xF`, `y ≠ 0xF`, `8xy5` sets `Vx := Vx − Vy`
(8-bit wraparound) with `VF := 1` iff `Vx > Vy` *strictly* before the
subtraction, and `8xy7` sets `Vx := Vy − Vx` with `VF := 1` iff `Vy > Vx`
strictly: the code compares with `>`, so equal operands leave `VF = 0`,
not `1` as the claim's `≥` would require. -/
theorem alu_sub_flags (s : Chip8) (rnd x y : Nat)
    (hx : (fetchOp s &&& 0xf00) >>> 8 = x) (hy : (fetchOp s &&& 0xf0) >>> 4 = y)
    (hxf : x ≠ 0xf) (hyf : y ≠ 0xf)
    (hpc : s.pc + 1 < 0x1000)
    (h8 : fetchOp s &&& 0xf000 = 0x8000) :
    (fetchOp s &&& 0xf = 0x5 →
      ∃ s', cycle s rnd = Outcome.ok s' ∧
        s'.v x = (0x100 + s.v x - s.v y) % 0x100 ∧
        s'.v 0xf = (if s.v y < s.v x then 1 else 0)) ∧
    (fetchOp s &&& 0xf = 0x7 →
      ∃ s', cycle s rnd = Outcome.ok s' ∧
        s'.v x = (0x100 + s.v y - s.v x) % 0x100 ∧
        s'.v 0xf = (if s.v x < s.v y then 1 else 0)) := by
  have hc : cycle s rnd = execAlu (fetchOp s) { s with draw := false } := by
    rw [cycle_eq_execOp s rnd hpc, execOp_branch8 _ _ _ h8]
  constructor
  · intro h5
    rw [hc]
    simp only [execAlu]
    rw [hx, hy, h5]
    norm_num [finish]
    constructor
    · simp [hxf, hyf]
    · simp [hxf, hyf, Ne.symm hxf]
  · intro h7
    rw [hc]
    simp only [execAlu]
    rw [hx, hy, h7]
    norm_num [finish]
    constructor
    · simp [hxf, hyf]
    · simp [hxf, hyf, Ne.symm hxf]

/-- Concrete `8015` with `V0 = V1 = 5` (equal operands). -/
def exSubEq : Chip8 :=
  { baseState with
    mem := opMem 0x80 0x15
    v := fun k => if k = 0 then 5 else if k = 1 then 5 else 0 }

/-- C5 counterexample: `8xy5` with `Vx = Vy = 5` sets `VF = 0` (the code
tests `Vx > Vy`), while the claim's `Vx ≥ Vy` condition demands `VF = 1`. -/
theorem alu_sub_flags_counterexample :
    cycle exSubEq 0 = Outcome.ok (stepOk exSubEq 0) ∧
    exSubEq.v 0 = exSubEq.v 1 ∧
    (stepOk exSubEq 0).v 15 = 0 ∧
    (stepOk exSubEq 0).v 15 ≠ 1 :=
  ⟨rfl, rfl, rfl, by decide⟩

/-- Concrete `8015` with `V0 = 2`, `V1 = 1` (the spec's borrow test). -/
def exSub : Chip8 :=
  { baseState with
    mem := opMem 0x80 0x15
    v := fun k => if k = 0 then 2 else if k = 1 then 1 else 0 }

theorem alu_sub_flags_witness :
    ∃ s', cycle exSub 0 = Outcome.ok s' ∧
      s'.v 0 = (0x100 + exSub.v 0 - exSub.v 1) % 0x100 ∧
      s'.v 0xf = (if exSub.v 1 < exSub.v 0 then 1 else 0) :=
  (alu_sub_flags exSub 0 0 1 (by decide) (by decide) (by decide) (by decide)
    (by decide) (by decide)).1 (by decide)

/-! ### C3 -/

/-- C3: the code is wrong here.  Line 204 computes
`c8.v[0xf] = (x & 0x80) >> 7` from the register *index* `x` — a nibble, so
`VF` is always `0` — instead of the register *value* `c8.v[x]` whose top
bit the shift discards.  The shift itself (`Vx := Vx << 1` mod 256) matches
the claim.  Both Cowgod's reference (which the file cites for its opcode
semantics) and the spec require `VF` = bit 7 of `Vx` before the shift. -/
theorem alu_shl_vf_zero (s : Chip8) (rnd x : Nat)
    (hx : (fetchOp s &&& 0xf00) >>> 8 = x)
    (hxf : x ≠ 0xf)
    (hpc : s.pc + 1 < 0x1000)
    (h8 : fetchOp s &&& 0xf000 = 0x8000) (hE : fetchOp s &&& 0xf = 0xe) :
    ∃ s', cycle s rnd = Outcome.ok s' ∧
      s'.v 0xf = 0 ∧
      s'.v x = (s.v x <<< 1) % 0x100 := by
  have hc : cycle s rnd = execAlu (fetchOp s) { s with draw := false } := by
    rw [cycle_eq_execOp s rnd hpc, execOp_branch8 _ _ _ h8]
  have hxle : x ≤ 0xf := hx ▸ and_f00_shr_le (fetchOp s)
  rw [hc]
  simp only [execAlu]
  rw [hx, hE]
  norm_num [finish]
  constructor
  · simp [Ne.symm hxf, nibble_and_80 x hxle]
  · simp [hxf]

/-- Concrete `800E` with `V0 = 0x80` (top bit set). -/
def exShl : Chip8 :=
  { baseState with
    mem := opMem 0x80 0x0e
    v := fun k => if k = 0 then 0x80 else 0 }

theorem alu_shl_vf_zero_witness :
    (∃ s', cycle exShl 0 = Outcome.ok s' ∧
      s'.v 0xf = 0 ∧
      s'.v 0 = (exShl.v 0 <<< 1) % 0x100) ∧
    exShl.v 0 &&& 0x80 = 0x80 :=
  ⟨alu_shl_vf_zero exShl 0 0 (by decide) (by decide) (by decide) (by decide)
    (by decide), by decide⟩

/-! ### C8 -/

/-- C8: a `Fx29` step fails with the invalid-digit error exactly when
`Vx > 0xF`, leaving only the redraw flag cleared; otherwise it succeeds
with `I := Vx × 5`, the glyph offset in the font table. -/
theorem fx29_invalid_digit (s : Chip8) (rnd x : Nat)
    (hx : (fetchOp s &&& 0xf00) >>> 8 = x)
    (hpc : s.pc + 1 < 0x1000)
    (hF : fetchOp s &&& 0xf000 = 0xf000) (h29 : fetchOp s &&& 0xff = 0x29) :
    (0xf < s.v x →
      cycle s rnd = Outcome.err (Err.invalidDigit (s.v x)) { s with draw := false }) ∧
    (s.v x ≤ 0xf →
      ∃ s', cycle s rnd = Outcome.ok s' ∧ s'.i = s.v x * 5) := by
  have hc : cycle s rnd = execFx (fetchOp s) { s with draw := false } := by
    rw [cycle_eq_execOp s rnd hpc, execOp_branchF _ _ _ hF]
  constructor
  · intro hgt
    rw [hc]
    simp only [execFx]
    rw [hx, h29]
    norm_num [finish]
    simp [hgt]
  · intro hle
    rw [hc]
    simp only [execFx]
    rw [hx, h29]
    norm_num [finish]
    rw [if_neg (by simpa using hle)]
    refine ⟨_, rfl, ?_⟩
    simp

/-- Concrete `F029` with `V0 = 0x10` (the spec's failing digit). -/
def exFont : Chip8 :=
  { baseState with
    mem := opMem 0xf0 0x29
    v := fun k => if k = 0 then 0x10 else 0 }

/-- Concrete `F029` with `V0 = 0xA`. -/
def exFontOk : Chip8 :=
  { baseState with
    mem := opMem 0xf0 0x29
    v := fun k => if k = 0 then 0xa else 0 }

theorem fx29_invalid_digit_witness :
    cycle exFont 0 = Outcome.err (Err.invalidDigit (exFont.v 0)) { exFont with draw := false } ∧
    (∃ s', cycle exFontOk 0 = Outcome.ok s' ∧ s'.i = exFontOk.v 0 * 5) :=
  ⟨(fx29_invalid_digit exFont 0 0 (by decide) (by decide) (by decide)
      (by decide)).1 (by decide),
   (fx29_invalid_digit exFontOk 0 0 (by decide) (by decide) (by decide)
      (by decide)).2 (by decide)⟩

/-! ### C4 -/

/-- A `2nnn` step: push `pc`, increment `sp`, jump to `nnn`, tick timers. -/
theorem cycle_call (s : Chip8) (rnd : Nat) (hpc : s.pc + 1 < 0x1000)
    (h2 : fetchOp s &&& 0xf000 = 0x2000) (hsp : s.sp < 0x10) :
    cycle s rnd = Outcome.ok (tickTimers
      { s with draw := false
               stack := fun k => if k = s.sp then s.pc else s.stack k
               sp := (s.sp + 1) % 0x100
               pc := fetchOp s &&& 0xfff }) := by
  rw [cycle_eq_execOp s rnd hpc, execOp_branch2 _ _ _ h2]
  simp only [exec2]
  rw [stackWrite_lt _ _ _ hsp]
  simp [finish]

/-- A `00EE` step: decrement `sp` (`uint8`), pop `pc`, then the shared
`incPc(false)` advances past the popped address, tick timers. -/
theorem cycle_ret (s : Chip8) (rnd : Nat) (hpc : s.pc + 1 < 0x1000)
    (h0 : fetchOp s &&& 0xf000 = 0x0000) (hee : fetchOp s &&& 0xff = 0xee)
    (hsp : (s.sp + 0xff) % 0x100 < 0x10) :
    cycle s rnd = Outcome.ok (tickTimers (incPc
      { s with draw := false
               sp := (s.sp + 0xff) % 0x100
               pc := s.stack ((s.sp + 0xff) % 0x100) } false)) := by
  rw [cycle_eq_execOp s rnd hpc, execOp_branch0 _ _ _ h0]
  simp only [exec0]
  rw [hee]
  norm_num
  rw [stackRead_lt _ _ hsp]
  simp [finish]

/-- C4 corrected: a `2nnn` CALL followed by the matching `00EE` RET leaves
`PC` at the CALL's address *plus 2* — the instruction after the call — not
at the address itself: `00EE` restores the pushed `PC` exactly and then
falls through to the shared `incPc(false)`.  The stack pointer and every
stack slot below it are restored exactly. -/
theorem call_ret_roundtrip (s : Chip8) (rnd1 rnd2 : Nat)
    (hpc : s.pc + 1 < 0x1000)
    (h2 : fetchOp s &&& 0xf000 = 0x2000)
    (hsp : s.sp < 0x10)
    (hnnn : (fetchOp s &&& 0xfff) + 1 < 0x1000)
    (hm0 : s.mem (fetchOp s &&& 0xfff) = 0x00)
    (hm1 : s.mem ((fetchOp s &&& 0xfff) + 1) = 0xee) :
    ∃ s1 s2, cycle s rnd1 = Outcome.ok s1 ∧ cycle s1 rnd2 = Outcome.ok s2 ∧
      s2.pc = s.pc + 2 ∧ s2.sp = s.sp ∧
      (∀ k, k ≠ s.sp → s2.stack k = s.stack k) := by
  have hcall := cycle_call s rnd1 hpc h2 hsp
  have hmod : ((fetchOp s &&& 0xfff) + 1) % 0x10000 = (fetchOp s &&& 0xfff) + 1 :=
    Nat.mod_eq_of_lt (by omega)
  have hsp2 : ((s.sp + 1) % 0x100 + 0xff) % 0x100 = s.sp := by omega
  refine ⟨_, _, hcall, cycle_ret _ rnd2 (by simpa using hnnn) ?_ ?_ (by simp; omega),
    ?_, ?_, ?_⟩
  · simp only [fetchOp] at hm0 hm1 hmod
    simp [fetchOp, hmod, hm0, hm1]
    decide
  · simp only [fetchOp] at hm0 hm1 hmod
    simp [fetchOp, hmod, hm0, hm1]
    decide
  · simp [hsp2, Nat.mod_eq_of_lt (show s.pc + 2 < 0x10000 by omega)]
  · simp [hsp2]
  · intro k hk
    simp [hsp2, hk]

/-- Concrete state: `2300` (CALL 0x300) at `0x200`, `00EE` (RET) at `0x300`. -/
def exCall : Chip8 :=
  { baseState with
    mem := fun a => if a = 0x200 then 0x23 else if a = 0x301 then 0xee else 0 }

/-- C4 counterexample: PC before the CALL is `0x200`, but immediately after
the matching RET it is `0x202`, not `0x200` — the round trip does not
restore PC to its pre-CALL value. -/
theorem call_ret_roundtrip_counterexample :
    cycle exCall 0 = Outcome.ok (stepOk exCall 0) ∧
    cycle (stepOk exCall 0) 0 = Outcome.ok (stepOk (stepOk exCall 0) 0) ∧
    exCall.pc = 0x200 ∧
    (stepOk (stepOk exCall 0) 0).pc = 0x202 ∧
    (stepOk (stepOk exCall 0) 0).pc ≠ exCall.pc :=
  ⟨rfl, rfl, rfl, rfl, by decide⟩

theorem call_ret_roundtrip_witness :
    ∃ s1 s2, cycle exCall 0 = Outcome.ok s1 ∧ cycle s1 0 = Outcome.ok s2 ∧
      s2.pc = exCall.pc + 2 ∧ s2.sp = exCall.sp ∧
      (∀ k, k ≠ exCall.sp → s2.stack k = exCall.stack k) :=
  call_ret_roundtrip exCall 0 0 (by decide) (by decide) (by decide) (by decide)
    (by decide) (by decide)

/-! ### C2 -/

theorem drawCol_base (x y row col sr : Nat) (s : Chip8) :
    (drawCol x y row col sr s).key = s.key ∧ (drawCol x y row col sr s).draw = s.draw ∧
    (drawCol x y row col sr s).mem = s.mem ∧ (drawCol x y row col sr s).stack = s.stack ∧
    (drawCol x y row col sr s).i = s.i ∧ (drawCol x y row col sr s).pc = s.pc ∧
    (drawCol x y row col sr s).sp = s.sp ∧ (drawCol x y row col sr s).dt = s.dt ∧
    (drawCol x y row col sr s).st = s.st := by
  simp only [drawCol]
  split
  · split <;> simp
  · simp

theorem drawCol_v (x y row col sr : Nat) (s : Chip8) (j : Nat) (hj : j ≠ 0xf) :
    (drawCol x y row col sr s).v j = s.v j := by
  simp only [drawCol]
  split
  · split <;> simp [hj]
  · rfl

theorem drawCols_base (x y row sr : Nat) :
    ∀ cnt (s : Chip8),
      (drawCols x y row sr cnt s).key = s.key ∧ (drawCols x y row sr cnt s).draw = s.draw ∧
      (drawCols x y row sr cnt s).mem = s.mem ∧ (drawCols x y row sr cnt s).stack = s.stack ∧
      (drawCols x y row sr cnt s).i = s.i ∧ (drawCols x y row sr cnt s).pc = s.pc ∧
      (drawCols x y row sr cnt s).sp = s.sp ∧ (drawCols x y row sr cnt s).dt = s.dt ∧
      (drawCols x y row sr cnt s).st = s.st
  | 0, s => ⟨rfl, rfl, rfl, rfl, rfl, rfl, rfl, rfl, rfl⟩
  | cnt + 1, s => by
      have h1 := drawCols_base x y row sr cnt s
      have h2 := drawCol_base x y row cnt sr (drawCols x y row sr cnt s)
      simp only [drawCols]
      exact ⟨h2.1.trans h1.1, (h2.2.1).trans h1.2.1, (h2.2.2.1).trans h1.2.2.1,
        (h2.2.2.2.1).trans h1.2.2.2.1, (h2.2.2.2.2.1).trans h1.2.2.2.2.1,
        (h2.2.2.2.2.2.1).trans h1.2.2.2.2.2.1, (h2.2.2.2.2.2.2.1).trans h1.2.2.2.2.2.2.1,
        (h2.2.2.2.2.2.2.2.1).trans h1.2.2.2.2.2.2.2.1,
        (h2.2.2.2.2.2.2.2.2).trans h1.2.2.2.2.2.2.2.2⟩

theorem drawCols_v (x y row sr : Nat) (j : Nat) (hj : j ≠ 0xf) :
    ∀ cnt (s : Chip8), (drawCols x y row sr cnt s).v j = s.v j
  | 0, s => rfl
  | cnt + 1, s => by
      simp only [drawCols]
      rw [drawCol_v _ _ _ _ _ _ _ hj, drawCols_v x y row sr j hj cnt s]

theorem drawRows_some (x y : Nat) :
    ∀ cnt row (s : Chip8), (∀ r, r < cnt → (s.i + (row + r)) % 0x10000 < 0x1000) →
      ∃ s1, drawRows x y row cnt s = some s1
  | 0, _, s, _ => ⟨s, rfl⟩
  | cnt + 1, row, s, h => by
      simp only [drawRows]
      rw [memRead_lt _ _ (by simpa using h 0 (by omega))]
      have hi := (drawCols_base x y row (s.mem ((s.i + row) % 0x10000)) 8 s).2.2.2.2.1
      exact drawRows_some x y cnt (row + 1) _ (by
        intro r hr
        rw [hi]
        have := h (r + 1) (by omega)
        omega)

theorem storeRegs_some :
    ∀ cnt k (s : Chip8), (∀ r, r < cnt → (s.i + (k + r)) % 0x10000 < 0x1000) →
      ∃ s1, storeRegs k cnt s = some s1
  | 0, _, s, _ => ⟨s, rfl⟩
  | cnt + 1, k, s, h => by
      simp only [storeRegs]
      rw [memWrite_lt _ _ _ (by simpa using h 0 (by omega))]
      exact storeRegs_some cnt (k + 1) _ (by
        intro r hr
        have := h (r + 1) (by omega)
        show (s.i + (k + 1 + r)) % 0x10000 < 0x1000
        omega)

theorem loadRegs_some :
    ∀ cnt k (s : Chip8), (∀ r, r < cnt → (s.i + (k + r)) % 0x10000 < 0x1000) →
      ∃ s1, loadRegs k cnt s = some s1
  | 0, _, s, _ => ⟨s, rfl⟩
  | cnt + 1, k, s, h => by
      simp only [loadRegs]
      rw [memRead_lt _ _ (by simpa using h 0 (by omega))]
      exact loadRegs_some cnt (k + 1) _ (by
        intro r hr
        have := h (r + 1) (by omega)
        show (s.i + (k + 1 + r)) % 0x10000 < 0x1000
        omega)

/-- The opcode patterns enumerated by the `Cycle` switch — every opcode not
matching one of these reaches `goto Unknown`. -/
def validOp (op : Nat) : Prop :=
  (op &&& 0xf000 = 0x0000 ∧ (op &&& 0xff = 0xe0 ∨ op &&& 0xff = 0xee)) ∨
  op &&& 0xf000 = 0x1000 ∨ op &&& 0xf000 = 0x2000 ∨ op &&& 0xf000 = 0x3000 ∨
  op &&& 0xf000 = 0x4000 ∨ (op &&& 0xf000 = 0x5000 ∧ op &&& 0xf = 0x0) ∨
  op &&& 0xf000 = 0x6000 ∨ op &&& 0xf000 = 0x7000 ∨
  (op &&& 0xf000 = 0x8000 ∧ (op &&& 0xf ≤ 0x7 ∨ op &&& 0xf = 0xe)) ∨
  (op &&& 0xf000 = 0x9000 ∧ op &&& 0xf = 0x0) ∨
  op &&& 0xf000 = 0xa000 ∨ op &&& 0xf000 = 0xb000 ∨ op &&& 0xf000 = 0xc000 ∨
  op &&& 0xf000 = 0xd000 ∨
  (op &&& 0xf000 = 0xe000 ∧ (op &&& 0xff = 0x9e ∨ op &&& 0xff = 0xa1)) ∨
  (op &&& 0xf000 = 0xf000 ∧ (op &&& 0xff = 0x7 ∨ op &&& 0xff = 0xa ∨
    op &&& 0xff = 0x15 ∨ op &&& 0xff = 0x18 ∨ op &&& 0xff = 0x1e ∨ op &&& 0xff = 0x29 ∨
    op &&& 0xff = 0x33 ∨ op &&& 0xff = 0x55 ∨ op &&& 0xff = 0x65))

instance (op : Nat) : Decidable (validOp op) := by
  unfold validOp; infer_instance

/-- The extra per-instruction side conditions under which the interpreter's
array indexing stays in range (and `Fx0A` terminates): without them the Go
code panics — the indices are *not* bounded by construction. -/
def safeOp (op : Nat) (s : Chip8) : Prop :=
  (op &&& 0xf000 = 0x0000 ∧ op &&& 0xff = 0xee → (s.sp + 0xff) % 0x100 < 0x10) ∧
  (op &&& 0xf000 = 0x2000 → s.sp < 0x10) ∧
  (op &&& 0xf000 = 0xd000 → ∀ r, r < op &&& 0xf → (s.i + r) % 0x10000 < 0x1000) ∧
  (op &&& 0xf000 = 0xe000 → s.v ((op &&& 0xf00) >>> 8) < 0x10) ∧
  (op &&& 0xf000 = 0xf000 ∧ op &&& 0xff = 0xa → (findKeyFrom s 0 0x10).isSome = true) ∧
  (op &&& 0xf000 = 0xf000 ∧ op &&& 0xff = 0x29 → s.v ((op &&& 0xf00) >>> 8) ≤ 0xf) ∧
  (op &&& 0xf000 = 0xf000 ∧ op &&& 0xff = 0x33 →
    s.i < 0x1000 ∧ (s.i + 1) % 0x10000 < 0x1000 ∧ (s.i + 2) % 0x10000 < 0x1000) ∧
  (op &&& 0xf000 = 0xf000 ∧ (op &&& 0xff = 0x55 ∨ op &&& 0xff = 0x65) →
    ∀ r, r < ((op &&& 0xf00) >>> 8) + 1 → (s.i + r) % 0x10000 < 0x1000)

instance (op : Nat) (s : Chip8) : Decidable (safeOp op s) := by
  unfold safeOp; infer_instance

theorem exec0_total (op : Nat) (s : Chip8)
    (hv : op &&& 0xff = 0xe0 ∨ op &&& 0xff = 0xee)
    (hsp : op &&& 0xff = 0xee → (s.sp + 0xff) % 0x100 < 0x10) :
    ∃ s', exec0 op s = Outcome.ok s' := by
  unfold exec0
  rcases hv with h | h
  · rw [if_pos h]
    exact ⟨_, rfl⟩
  · rw [h]
    norm_num
    rw [stackRead_lt _ _ (hsp h)]
    exact ⟨_, rfl⟩

theorem exec2_total (op : Nat) (s : Chip8) (hsp : s.sp < 0x10) :
    ∃ s', exec2 op s = Outcome.ok s' := by
  unfold exec2
  rw [stackWrite_lt _ _ _ hsp]
  exact ⟨_, rfl⟩

theorem exec5_total (op : Nat) (s : Chip8) (h : op &&& 0xf = 0x0) :
    ∃ s', exec5 op s = Outcome.ok s' := by
  unfold exec5
  rw [if_pos h]
  exact ⟨_, rfl⟩

theorem exec9_total (op : Nat) (s : Chip8) (h : op &&& 0xf = 0x0) :
    ∃ s', exec9 op s = Outcome.ok s' := by
  unfold exec9
  rw [if_pos h]
  exact ⟨_, rfl⟩

theorem execAlu_total (op : Nat) (s : Chip8)
    (hv : op &&& 0xf ≤ 0x7 ∨ op &&& 0xf = 0xe) :
    ∃ s', execAlu op s = Outcome.ok s' := by
  have h : op &&& 0xf = 0 ∨ op &&& 0xf = 1 ∨ op &&& 0xf = 2 ∨ op &&& 0xf = 3 ∨
      op &&& 0xf = 4 ∨ op &&& 0xf = 5 ∨ op &&& 0xf = 6 ∨ op &&& 0xf = 7 ∨
      op &&& 0xf = 0xe := by omega
  simp only [execAlu]
  rcases h with h | h | h | h | h | h | h | h | h <;> rw [h] <;> norm_num <;> exact ⟨_, rfl⟩

theorem execD_total (op : Nat) (s : Chip8)
    (hd : ∀ r, r < op &&& 0xf → (s.i + r) % 0x10000 < 0x1000) :
    ∃ s', execD op s = Outcome.ok s' := by
  unfold execD execDraw
  obtain ⟨t, ht⟩ := drawRows_some ((op &&& 0xf00) >>> 8) ((op &&& 0xf0) >>> 4)
    (op &&& 0xf) 0 (setV s 0xf 0) (by
      intro r hr
      show (s.i + (0 + r)) % 0x10000 < 0x1000
      have := hd r hr
      omega)
  rw [ht]
  exact ⟨_, rfl⟩

theorem execE_total (op : Nat) (s : Chip8)
    (hv : op &&& 0xff = 0x9e ∨ op &&& 0xff = 0xa1)
    (hk : s.v ((op &&& 0xf00) >>> 8) < 0x10) :
    ∃ s', execE op s = Outcome.ok s' := by
  unfold execE
  rcases hv with h | h <;> rw [h] <;> norm_num <;> rw [keyRead_lt _ _ hk] <;> exact ⟨_, rfl⟩

theorem execFx_total (op : Nat) (s : Chip8)
    (hv : op &&& 0xff = 0x7 ∨ op &&& 0xff = 0xa ∨ op &&& 0xff = 0x15 ∨ op &&& 0xff = 0x18 ∨
      op &&& 0xff = 0x1e ∨ op &&& 0xff = 0x29 ∨ op &&& 0xff = 0x33 ∨ op &&& 0xff = 0x55 ∨
      op &&& 0xff = 0x65)
    (hkey : op &&& 0xff = 0xa → (findKeyFrom s 0 0x10).isSome = true)
    (h29 : op &&& 0xff = 0x29 → s.v ((op &&& 0xf00) >>> 8) ≤ 0xf)
    (h33 : op &&& 0xff = 0x33 →
      s.i < 0x1000 ∧ (s.i + 1) % 0x10000 < 0x1000 ∧ (s.i + 2) % 0x10000 < 0x1000)
    (h55 : op &&& 0xff = 0x55 ∨ op &&& 0xff = 0x65 →
      ∀ r, r < ((op &&& 0xf00) >>> 8) + 1 → (s.i + r) % 0x10000 < 0x1000) :
    ∃ s', execFx op s = Outcome.ok s' := by
  simp only [execFx]
  rcases hv with h | h | h | h | h | h | h | h | h
  · rw [h]; norm_num; exact ⟨_, rfl⟩
  · rw [h]; norm_num
    obtain ⟨k, hk⟩ := Option.isSome_iff_exists.mp (hkey h)
    rw [hk]
    exact ⟨_, rfl⟩
  · rw [h]; norm_num; exact ⟨_, rfl⟩
  · rw [h]; norm_num; exact ⟨_, rfl⟩
  · rw [h]; norm_num; exact ⟨_, rfl⟩
  · rw [h]; norm_num
    rw [if_neg (by have := h29 h; omega)]
    exact ⟨_, rfl⟩
  · rw [h]; norm_num
    obtain ⟨hb0, hb1, hb2⟩ := h33 h
    simp only [memWrite_lt, hb0, hb1, hb2]
    exact ⟨_, rfl⟩
  · rw [h]; norm_num
    obtain ⟨t, ht⟩ := storeRegs_some (((op &&& 0xf00) >>> 8) + 1) 0 s (by
      intro r hr
      have := h55 (Or.inl h) r (by omega)
      show (s.i + (0 + r)) % 0x10000 < 0x1000
      omega)
    rw [ht]
    exact ⟨_, rfl⟩
  · rw [h]; norm_num
    obtain ⟨t, ht⟩ := loadRegs_some (((op &&& 0xf00) >>> 8) + 1) 0 s (by
      intro r hr
      have := h55 (Or.inr h) r (by omega)
      show (s.i + (0 + r)) % 0x10000 < 0x1000
      omega)
    rw [ht]
    exact ⟨_, rfl⟩

theorem execOp_total (op rnd : Nat) (s : Chip8)
    (hv : validOp op) (hs : safeOp op s) :
    ∃ s', execOp op rnd s = Outcome.ok s' := by
  obtain ⟨hsRet, hsCall, hsDraw, hsKey, hsWait, hs29, hs33, hsBlk⟩ := hs
  rcases hv with ⟨h0, he⟩ | h1 | h2 | h3 | h4 | ⟨h5, h5l⟩ | h6 | h7 | ⟨h8, h8l⟩ |
    ⟨h9, h9l⟩ | ha | hb | hc | hd | ⟨he', hel⟩ | ⟨hf, hfl⟩
  · rw [execOp_branch0 _ _ _ h0]
    exact exec0_total op s he (fun hee => hsRet ⟨h0, hee⟩)
  · rw [execOp_branch1 _ _ _ h1]; exact ⟨_, rfl⟩
  · rw [execOp_branch2 _ _ _ h2]; exact exec2_total op s (hsCall h2)
  · rw [execOp_branch3 _ _ _ h3]; exact ⟨_, rfl⟩
  · rw [execOp_branch4 _ _ _ h4]; exact ⟨_, rfl⟩
  · rw [execOp_branch5 _ _ _ h5]; exact exec5_total op s h5l
  · rw [execOp_branch6 _ _ _ h6]; exact ⟨_, rfl⟩
  · rw [execOp_branch7 _ _ _ h7]; exact ⟨_, rfl⟩
  · rw [execOp_branch8 _ _ _ h8]; exact execAlu_total op s h8l
  · rw [execOp_branch9 _ _ _ h9]; exact exec9_total op s h9l
  · rw [execOp_branchA _ _ _ ha]; exact ⟨_, rfl⟩
  · rw [execOp_branchB _ _ _ hb]; exact ⟨_, rfl⟩
  · rw [execOp_branchC _ _ _ hc]; exact ⟨_, rfl⟩
  · rw [execOp_branchD _ _ _ hd]; exact execD_total op s (hsDraw hd)
  · rw [execOp_branchE _ _ _ he']; exact execE_total op s hel (hsKey he')
  · rw [execOp_branchF _ _ _ hf]
    exact execFx_total op s hfl (fun ha' => hsWait ⟨hf, ha'⟩) (fun h' => hs29 ⟨hf, h'⟩)
      (fun h' => hs33 ⟨hf, h'⟩) (fun h' => hsBlk ⟨hf, h'⟩)

/-- C2 amended: for every state whose fetched opcode is one of the
enumerated patterns, a cycle completes successfully (no error and no panic)
*provided additionally* that the per-instruction side conditions of
`safeOp` hold: decremented stack pointer below 16 for `00EE`, stack
pointer below 16 for `2nnn`, `Vx ≤ 0xF` for `Ex9E`/`ExA1` and `Fx29`,
some key pressed for `Fx0A`, and every memory address used by
`Dxyn`/`Fx33`/`Fx55`/`Fx65` (I..I+n−1, I..I+2, I..I+x with 16-bit address
arithmetic) below `0x1000`.  These conditions are not implied by opcode
validity — see the counterexample, where `Fx33` with a reachable
`I = 0xFFF` indexes `mem[0x1001]` and the interpreter panics. -/
theorem cycle_total_on_safe (s : Chip8) (rnd : Nat)
    (hpc : s.pc + 1 < 0x1000)
    (hv : validOp (fetchOp s)) (hs : safeOp (fetchOp s) s) :
    ∃ s2, cycle s rnd = Outcome.ok s2 := by
  rw [cycle_eq_execOp s rnd hpc]
  exact execOp_total (fetchOp s) rnd { s with draw := false } hv hs

/-- Concrete `F033` (BCD store) with `I = 0xFFF`, reachable via `AFFF`. -/
def exPanic : Chip8 :=
  { baseState with
    mem := opMem 0xf0 0x33
    i := 0xfff }

/-- C2 counterexample: a valid enumerated opcode (`F033`), not an error
condition and not a call-stack overflow, whose memory indices `I+1`, `I+2`
leave the 4096-byte address space: the interpreter panics instead of
completing. -/
theorem cycle_total_counterexample :
    validOp (fetchOp exPanic) ∧ exPanic.i = 0xfff ∧ cycle exPanic 0 = Outcome.panic :=
  ⟨by decide, rfl, rfl⟩

/-- Concrete `602A` (`V0 := 0x2A`), an unconditionally safe instruction. -/
def exLoad : Chip8 := { baseState with mem := opMem 0x60 0x2a }

theorem cycle_total_on_safe_witness :
    ∃ s2, cycle exLoad 0 = Outcome.ok s2 :=
  cycle_total_on_safe exLoad 0 (by decide) (by decide) (by decide)

/-! ### C6 -/

theorem xor_one_eq_zero (g : Nat) : g ^^^ 1 = 0 ↔ g = 1 := by
  constructor
  · intro h
    have h2 := congrArg (· ^^^ 1) h
    simpa [Nat.xor_assoc] using h2
  · rintro rfl
    rfl

theorem xor_one_eq_one (g : Nat) : g ^^^ 1 = 1 ↔ g = 0 := by
  constructor
  · intro h
    have h2 := congrArg (· ^^^ 1) h
    simpa [Nat.xor_assoc] using h2
  · rintro rfl
    rfl

theorem xor_one_xor_one (g : Nat) : g ^^^ 1 ^^^ 1 = g := by
  simp [Nat.xor_assoc]

theorem mod64_inj (v c c' : Nat) (hc : c < 64) (hc' : c' < 64)
    (h : (v + c) % 64 = (v + c') % 64) : c = c' := by omega

theorem mod32_ne (v r r' : Nat) (h1 : r < r') (h2 : r' < r + 32) :
    (v + r) % 32 ≠ (v + r') % 32 := by omega

theorem ite_setV_gfx (P : Prop) [Decidable P] (u : Chip8) (j w : Nat) :
    (if P then setV u j w else u).gfx = u.gfx := by
  split <;> simp

theorem ite_setV_vf (P : Prop) [Decidable P] (u : Chip8) :
    (if P then setV u 0xf 1 else u).v 0xf = if P then 1 else u.v 0xf := by
  split <;> simp

theorem ite_setV_v_ne (P : Prop) [Decidable P] (u : Chip8) (j : Nat) (hj : j ≠ 0xf) :
    (if P then setV u 0xf 1 else u).v j = u.v j := by
  split <;> simp [hj]

/-- Pointwise effect of one sprite row's column loop on the display: the
cell `(a, b)` is toggled exactly when some processed column hits it; every
processed column hits a distinct cell, so each cell is toggled at most
once. -/
theorem drawCols_gfx (x y row sr : Nat) (hx : x ≠ 0xf) (hy : y ≠ 0xf) :
    ∀ cnt, cnt ≤ 64 → ∀ (s : Chip8) (a b : Nat),
      (drawCols x y row sr cnt s).gfx a b =
        (if ∃ c, c < cnt ∧ spriteBit sr c ∧ a = (s.v x + c) % 64 ∧ b = (s.v y + row) % 32
         then s.gfx a b ^^^ 1 else s.gfx a b)
  | 0, _, s, a, b => by
      simp [drawCols]
  | cnt + 1, hle, s, a, b => by
      have IH := drawCols_gfx x y row sr hx hy cnt (by omega) s
      have hvx := drawCols_v x y row sr x hx cnt s
      have hvy := drawCols_v x y row sr y hy cnt s
      simp only [drawCols, drawCol]
      split
      case isTrue hbit =>
        rw [ite_setV_gfx, setGfx_gfx, hvx, hvy]
        by_cases hab : a = (s.v x + cnt) % 64 ∧ b = (s.v y + row) % 32
        · rw [if_pos hab]
          obtain ⟨ha, hb⟩ := hab
          have hK : (drawCols x y row sr cnt s).gfx ((s.v x + cnt) % 64) ((s.v y + row) % 32)
              = s.gfx ((s.v x + cnt) % 64) ((s.v y + row) % 32) := by
            rw [IH]
            rw [if_neg]
            rintro ⟨c, hc, _, hac, _⟩
            exact absurd (mod64_inj (s.v x) cnt c (by omega) (by omega) hac) (by omega)
          rw [hK, ha, hb]
          rw [if_pos ⟨cnt, by omega, hbit, rfl, rfl⟩]
        · rw [if_neg hab, IH]
          refine if_congr ?_ rfl rfl
          constructor
          · rintro ⟨c, hc, hb1, hb2, hb3⟩
            exact ⟨c, by omega, hb1, hb2, hb3⟩
          · rintro ⟨c, hc, hb1, hb2, hb3⟩
            rcases Nat.lt_succ_iff_lt_or_eq.mp hc with hc' | hc'
            · exact ⟨c, hc', hb1, hb2, hb3⟩
            · exact absurd ⟨hb2.trans (by rw [hc']), hb3⟩ hab
      case isFalse hbit =>
        rw [IH]
        refine if_congr ?_ rfl rfl
        constructor
        · rintro ⟨c, hc, hb1, hb2, hb3⟩
          exact ⟨c, by omega, hb1, hb2, hb3⟩
        · rintro ⟨c, hc, hb1, hb2, hb3⟩
          rcases Nat.lt_succ_iff_lt_or_eq.mp hc with hc' | hc'
          · exact ⟨c, hc', hb1, hb2, hb3⟩
          · exact absurd (hc' ▸ hb1) hbit

/-- The collision flag after one sprite row's column loop: it becomes 1
exactly when some processed column toggles a cell whose value was 1 at the
start of the row (each cell is hit at most once), and is otherwise left as
it was. -/
theorem drawCols_vf (x y row sr : Nat) (hx : x ≠ 0xf) (hy : y ≠ 0xf) :
    ∀ cnt, cnt ≤ 64 → ∀ (s : Chip8),
      (drawCols x y row sr cnt s).v 0xf =
        (if ∃ c, c < cnt ∧ spriteBit sr c ∧
            s.gfx ((s.v x + c) % 64) ((s.v y + row) % 32) = 1
         then 1 else s.v 0xf)
  | 0, _, s => by simp [drawCols]
  | cnt + 1, hle, s => by
      have IH := drawCols_vf x y row sr hx hy cnt (by omega) s
      have IHg := drawCols_gfx x y row sr hx hy cnt (by omega) s
      have hvx := drawCols_v x y row sr x hx cnt s
      have hvy := drawCols_v x y row sr y hy cnt s
      simp only [drawCols, drawCol]
      split
      case isTrue hbit =>
        rw [ite_setV_vf, setGfx_v]
        rw [show ((setGfx (drawCols x y row sr cnt s)
            (((drawCols x y row sr cnt s).v x + cnt) % 64)
            (((drawCols x y row sr cnt s).v y + row) % 32)
            ((drawCols x y row sr cnt s).gfx
              (((drawCols x y row sr cnt s).v x + cnt) % 64)
              (((drawCols x y row sr cnt s).v y + row) % 32) ^^^ 1)).gfx
            (((drawCols x y row sr cnt s).v x + cnt) % 64)
            (((drawCols x y row sr cnt s).v y + row) % 32)) =
          ((drawCols x y row sr cnt s).gfx
            (((drawCols x y row sr cnt s).v x + cnt) % 64)
            (((drawCols x y row sr cnt s).v y + row) % 32) ^^^ 1) from by
          rw [setGfx_gfx, if_pos ⟨rfl, rfl⟩]]
        rw [hvx, hvy]
        have hK : (drawCols x y row sr cnt s).gfx ((s.v x + cnt) % 64) ((s.v y + row) % 32)
            = s.gfx ((s.v x + cnt) % 64) ((s.v y + row) % 32) := by
          rw [IHg]
          rw [if_neg]
          rintro ⟨c, hc, _, hac, _⟩
          exact absurd (mod64_inj (s.v x) cnt c (by omega) (by omega) hac) (by omega)
        rw [hK, IH]
        by_cases hP : s.gfx ((s.v x + cnt) % 64) ((s.v y + row) % 32) = 1
        · rw [if_pos ((xor_one_eq_zero _).mpr hP),
            if_pos ⟨cnt, by omega, hbit, hP⟩]
        · rw [if_neg (fun hz => hP ((xor_one_eq_zero _).mp hz))]
          refine if_congr ?_ rfl rfl
          constructor
          · rintro ⟨c, hc, hb1, hb2⟩
            exact ⟨c, by omega, hb1, hb2⟩
          · rintro ⟨c, hc, hb1, hb2⟩
            rcases Nat.lt_succ_iff_lt_or_eq.mp hc with hc' | hc'
            · exact ⟨c, hc', hb1, hb2⟩
            · subst hc'
              exact absurd hb2 hP
      case isFalse hbit =>
        rw [IH]
        refine if_congr ?_ rfl rfl
        constructor
        · rintro ⟨c, hc, hb1, hb2⟩
          exact ⟨c, by omega, hb1, hb2⟩
        · rintro ⟨c, hc, hb1, hb2⟩
          rcases Nat.lt_succ_iff_lt_or_eq.mp hc with hc' | hc'
          · exact ⟨c, hc', hb1, hb2⟩
          · exact absurd (hc' ▸ hb1) hbit

theorem drawRows_base (x y : Nat) :
    ∀ cnt row (s t : Chip8), drawRows x y row cnt s = some t →
      t.key = s.key ∧ t.draw = s.draw ∧ t.mem = s.mem ∧ t.stack = s.stack ∧
      t.i = s.i ∧ t.pc = s.pc ∧ t.sp = s.sp ∧ t.dt = s.dt ∧ t.st = s.st
  | 0, row, s, t, h => by
      simp only [drawRows] at h
      cases h
      exact ⟨rfl, rfl, rfl, rfl, rfl, rfl, rfl, rfl, rfl⟩
  | cnt + 1, row, s, t, h => by
      simp only [drawRows] at h
      rcases hr : memRead s ((s.i + row) % 0x10000) with _ | sr
      · rw [hr] at h; exact Option.noConfusion h
      · simp only [hr] at h
        have h1 := drawCols_base x y row sr 8 s
        have h2 := drawRows_base x y cnt (row + 1) _ t h
        exact ⟨h2.1.trans h1.1, h2.2.1.trans h1.2.1, h2.2.2.1.trans h1.2.2.1,
          h2.2.2.2.1.trans h1.2.2.2.1, h2.2.2.2.2.1.trans h1.2.2.2.2.1,
          h2.2.2.2.2.2.1.trans h1.2.2.2.2.2.1, h2.2.2.2.2.2.2.1.trans h1.2.2.2.2.2.2.1,
          h2.2.2.2.2.2.2.2.1.trans h1.2.2.2.2.2.2.2.1,
          h2.2.2.2.2.2.2.2.2.trans h1.2.2.2.2.2.2.2.2⟩

theorem drawRows_v (x y j : Nat) (hj : j ≠ 0xf) :
    ∀ cnt row (s t : Chip8), drawRows x y row cnt s = some t → t.v j = s.v j
  | 0, row, s, t, h => by
      simp only [drawRows] at h
      cases h
      rfl
  | cnt + 1, row, s, t, h => by
      simp only [drawRows] at h
      rcases hr : memRead s ((s.i + row) % 0x10000) with _ | sr
      · rw [hr] at h; exact Option.noConfusion h
      · simp only [hr] at h
        exact (drawRows_v x y j hj cnt (row + 1) _ t h).trans (drawCols_v x y row sr j hj 8 s)

/-- Pointwise effect of the whole sprite-row loop on the display: a cell is
toggled exactly when some row/column pair of the processed window hits it;
distinct rows write distinct screen lines (mod 32), so each cell is toggled
at most once across the window. -/
theorem drawRows_gfx (x y : Nat) (hx : x ≠ 0xf) (hy : y ≠ 0xf) :
    ∀ cnt, cnt ≤ 32 → ∀ row (s t : Chip8), drawRows x y row cnt s = some t →
      ∀ a b, t.gfx a b =
        (if ∃ d, d < cnt ∧ b = (s.v y + (row + d)) % 32 ∧
            ∃ c, c < 8 ∧ spriteBit (s.mem ((s.i + (row + d)) % 0x10000)) c ∧
              a = (s.v x + c) % 64
         then s.gfx a b ^^^ 1 else s.gfx a b)
  | 0, _, row, s, t, h, a, b => by
      simp only [drawRows] at h
      cases h
      rw [if_neg]
      rintro ⟨d, hd, _⟩
      omega
  | cnt + 1, hle, row, s, t, h, a, b => by
      simp only [drawRows] at h
      rcases hr : memRead s ((s.i + row) % 0x10000) with _ | sr
      · rw [hr] at h; exact Option.noConfusion h
      simp only [hr] at h
      have hsr : sr = s.mem ((s.i + row) % 0x10000) := by
        simp only [memRead] at hr
        split at hr
        · exact ((Option.some.injEq _ _).mp hr).symm
        · exact Option.noConfusion hr
      have hb1 := drawCols_base x y row sr 8 s
      have hvx := drawCols_v x y row sr x hx 8 s
      have hvy := drawCols_v x y row sr y hy 8 s
      have IH := drawRows_gfx x y hx hy cnt (by omega) (row + 1) _ t h a b
      simp only [hb1.2.2.1, hb1.2.2.2.2.1, hvx, hvy] at IH
      have hcols := drawCols_gfx x y row sr hx hy 8 (by omega) s a b
      by_cases hC1 : ∃ d, d < cnt ∧ b = (s.v y + (row + 1 + d)) % 32 ∧
          ∃ c, c < 8 ∧ spriteBit (s.mem ((s.i + (row + 1 + d)) % 0x10000)) c ∧
            a = (s.v x + c) % 64
      · obtain ⟨d, hd, hbb, c, hc, hbit, haa⟩ := hC1
        have hC0 : ¬∃ c, c < 8 ∧ spriteBit sr c ∧ a = (s.v x + c) % 64 ∧
            b = (s.v y + row) % 32 := by
          rintro ⟨c', _, _, _, hbb'⟩
          exact mod32_ne (s.v y) row (row + 1 + d) (by omega) (by omega)
            (hbb'.symm.trans hbb)
        rw [if_pos ⟨d, hd, hbb, c, hc, hbit, haa⟩] at IH
        rw [IH, hcols, if_neg hC0]
        rw [if_pos ⟨d + 1, by omega,
          by rw [show row + (d + 1) = row + 1 + d from by omega]; exact hbb,
          c, hc, by rw [show row + (d + 1) = row + 1 + d from by omega]; exact hbit,
          haa⟩]
      · rw [if_neg hC1] at IH
        rw [IH, hcols]
        by_cases hC0 : ∃ c, c < 8 ∧ spriteBit sr c ∧ a = (s.v x + c) % 64 ∧
            b = (s.v y + row) % 32
        · obtain ⟨c, hc, hbit, haa, hbb⟩ := hC0
          rw [if_pos ⟨c, hc, hbit, haa, hbb⟩]
          rw [if_pos ⟨0, by omega, by simpa using hbb, c, hc,
            by simpa using (hsr ▸ hbit), haa⟩]
        · rw [if_neg hC0, if_neg]
          rintro ⟨d, hd, hbb, c, hc, hbit, haa⟩
          rcases Nat.eq_zero_or_pos d with rfl | hpos
          · exact hC0 ⟨c, hc, by simpa using (hsr ▸ hbit), haa, by simpa using hbb⟩
          · refine hC1 ⟨d - 1, by omega, ?_, c, hc, ?_, haa⟩
            · rw [show row + 1 + (d - 1) = row + d from by omega]; exact hbb
            · rw [show row + 1 + (d - 1) = row + d from by omega]; exact hbit

/-- Does some set sprite bit in the row window `[row, row+cnt)` land on a
display cell that currently holds `1`?  (The collision condition of
`Dxyn`, read off the loop structure.) -/
def windowCollides (s : Chip8) (x y row cnt : Nat) : Prop :=
  ∃ d, d < cnt ∧ ∃ c, c < 8 ∧
    spriteBit (s.mem ((s.i + (row + d)) % 0x10000)) c ∧
    s.gfx ((s.v x + c) % 64) ((s.v y + (row + d)) % 32) = 1

instance (s : Chip8) (x y row cnt : Nat) : Decidable (windowCollides s x y row cnt) := by
  unfold windowCollides
  infer_instance

/-- The collision flag after the whole sprite-row loop: set to 1 exactly
when some set sprite bit of the processed window lands on a cell that was
1 before the loop, otherwise left unchanged. -/
theorem drawRows_vf (x y : Nat) (hx : x ≠ 0xf) (hy : y ≠ 0xf) :
    ∀ cnt, cnt ≤ 32 → ∀ row (s t : Chip8), drawRows x y row cnt s = some t →
      t.v 0xf = (if windowCollides s x y row cnt then 1 else s.v 0xf)
  | 0, _, row, s, t, h => by
      simp only [drawRows] at h
      cases h
      rw [if_neg]
      rintro ⟨d, hd, _⟩
      omega
  | cnt + 1, hle, row, s, t, h => by
      simp only [drawRows] at h
      rcases hr : memRead s ((s.i + row) % 0x10000) with _ | sr
      · rw [hr] at h; exact Option.noConfusion h
      simp only [hr] at h
      have hsr : sr = s.mem ((s.i + row) % 0x10000) := by
        simp only [memRead] at hr
        split at hr
        · exact ((Option.some.injEq _ _).mp hr).symm
        · exact Option.noConfusion hr
      have hb1 := drawCols_base x y row sr 8 s
      have hvx := drawCols_v x y row sr x hx 8 s
      have hvy := drawCols_v x y row sr y hy 8 s
      have IH := drawRows_vf x y hx hy cnt (by omega) (row + 1) _ t h
      have hgfx : ∀ d c : Nat, d < cnt →
          (drawCols x y row sr 8 s).gfx ((s.v x + c) % 64)
            ((s.v y + (row + 1 + d)) % 32) =
          s.gfx ((s.v x + c) % 64) ((s.v y + (row + 1 + d)) % 32) := by
        intro d c hd
        rw [drawCols_gfx x y row sr hx hy 8 (by omega) s]
        rw [if_neg]
        rintro ⟨c', _, _, _, hbb'⟩
        exact mod32_ne (s.v y) row (row + 1 + d) (by omega) (by omega) hbb'.symm
      have hiff : windowCollides (drawCols x y row sr 8 s) x y (row + 1) cnt ↔
          (∃ d, d < cnt ∧ ∃ c, c < 8 ∧
          spriteBit (s.mem ((s.i + (row + 1 + d)) % 0x10000)) c ∧
          s.gfx ((s.v x + c) % 64) ((s.v y + (row + 1 + d)) % 32) = 1) := by
        unfold windowCollides
        simp only [hb1.2.2.1, hb1.2.2.2.2.1, hvx, hvy]
        constructor
        · rintro ⟨d, hd, c, hc, hbit, hcell⟩
          exact ⟨d, hd, c, hc, hbit, (hgfx d c hd) ▸ hcell⟩
        · rintro ⟨d, hd, c, hc, hbit, hcell⟩
          exact ⟨d, hd, c, hc, hbit, (hgfx d c hd).symm ▸ hcell⟩
      rw [if_congr hiff rfl rfl] at IH
      rw [IH, drawCols_vf x y row sr hx hy 8 (by omega) s]
      unfold windowCollides
      by_cases hC1 : ∃ d, d < cnt ∧ ∃ c, c < 8 ∧
          spriteBit (s.mem ((s.i + (row + 1 + d)) % 0x10000)) c ∧
          s.gfx ((s.v x + c) % 64) ((s.v y + (row + 1 + d)) % 32) = 1
      · obtain ⟨d, hd, c, hc, hbit, hcell⟩ := hC1
        rw [if_pos ⟨d, hd, c, hc, hbit, hcell⟩]
        rw [if_pos ⟨d + 1, by omega, c, hc,
          by rw [show row + (d + 1) = row + 1 + d from by omega]; exact hbit,
          by rw [show row + (d + 1) = row + 1 + d from by omega]; exact hcell⟩]
      · rw [if_neg hC1]
        by_cases hC0 : ∃ c, c < 8 ∧ spriteBit sr c ∧
            s.gfx ((s.v x + c) % 64) ((s.v y + row) % 32) = 1
        · obtain ⟨c, hc, hbit, hcell⟩ := hC0
          rw [if_pos ⟨c, hc, hbit, hcell⟩]
          rw [if_pos ⟨0, by omega, c, hc, by simpa using (hsr ▸ hbit),
            by simpa using hcell⟩]
        · rw [if_neg hC0, if_neg]
          rintro ⟨d, hd, c, hc, hbit, hcell⟩
          rcases Nat.eq_zero_or_pos d with rfl | hpos
          · exact hC0 ⟨c, hc, by simpa using (hsr ▸ hbit), by simpa using hcell⟩
          · refine hC1 ⟨d - 1, by omega, c, hc, ?_, ?_⟩
            · rw [show row + 1 + (d - 1) = row + d from by omega]; exact hbit
            · rw [show row + 1 + (d - 1) = row + d from by omega]; exact hcell

theorem execDraw_base (x y n : Nat) (s t : Chip8) (h : execDraw x y n s = some t) :
    t.key = s.key ∧ t.draw = s.draw ∧ t.mem = s.mem ∧ t.stack = s.stack ∧
    t.i = s.i ∧ t.pc = s.pc ∧ t.sp = s.sp ∧ t.dt = s.dt ∧ t.st = s.st := by
  unfold execDraw at h
  simpa using drawRows_base x y n 0 _ t h

theorem execDraw_v (x y n j : Nat) (hj : j ≠ 0xf) (s t : Chip8)
    (h : execDraw x y n s = some t) : t.v j = s.v j := by
  unfold execDraw at h
  have := drawRows_v x y j hj n 0 _ t h
  simpa [hj] using this

/-- Pointwise effect of a whole `Dxyn` draw on the display buffer. -/
theorem execDraw_gfx (x y n : Nat) (hx : x ≠ 0xf) (hy : y ≠ 0xf) (hn : n ≤ 32)
    (s t : Chip8) (h : execDraw x y n s = some t) (a b : Nat) :
    t.gfx a b =
      (if ∃ d, d < n ∧ b = (s.v y + d) % 32 ∧
          ∃ c, c < 8 ∧ spriteBit (s.mem ((s.i + d) % 0x10000)) c ∧ a = (s.v x + c) % 64
       then s.gfx a b ^^^ 1 else s.gfx a b) := by
  unfold execDraw at h
  have := drawRows_gfx x y hx hy n hn 0 (setV s 0xf 0) t h a b
  simpa [hx, hy] using this

/-- The collision flag after a whole `Dxyn` draw: `VF` is zeroed first and
becomes 1 exactly when some set sprite bit lands on a cell that held 1. -/
theorem execDraw_vf (x y n : Nat) (hx : x ≠ 0xf) (hy : y ≠ 0xf) (hn : n ≤ 32)
    (s t : Chip8) (h : execDraw x y n s = some t) :
    t.v 0xf = (if windowCollides s x y 0 n then 1 else 0) := by
  unfold execDraw at h
  have hres := drawRows_vf x y hx hy n hn 0 (setV s 0xf 0) t h
  have hiff : windowCollides (setV s 0xf 0) x y 0 n ↔ windowCollides s x y 0 n := by
    unfold windowCollides
    simp [hx, hy]
  rw [if_congr hiff rfl rfl] at hres
  simpa using hres

/-- A `Dxyn` step at cycle level. -/
theorem cycle_draw_step (s : Chip8) (rnd : Nat) (hpc : s.pc + 1 < 0x1000)
    (hD : fetchOp s &&& 0xf000 = 0xd000) (t : Chip8)
    (ht : execDraw ((fetchOp s &&& 0xf00) >>> 8) ((fetchOp s &&& 0xf0) >>> 4)
      (fetchOp s &&& 0xf) { s with draw := false } = some t) :
    cycle s rnd = Outcome.ok (tickTimers (incPc { t with draw := true } false)) := by
  rw [cycle_eq_execOp s rnd hpc, execOp_branchD _ _ _ hD]
  simp only [execD]
  rw [ht]
  rfl

/-- Does some set sprite bit of the `n`-row sprite at `memory[I..I+n)` land
on a display cell that is currently off (0)?  Exactly then does the second
of two identical draws report a collision. -/
def drawTouchesOff (s : Chip8) (x y n : Nat) : Prop :=
  ∃ d, d < n ∧ ∃ c, c < 8 ∧ spriteBit (s.mem ((s.i + d) % 0x10000)) c ∧
    s.gfx ((s.v x + c) % 64) ((s.v y + d) % 32) = 0

instance (s : Chip8) (x y n : Nat) : Decidable (drawTouchesOff s x y n) := by
  unfold drawTouchesOff
  infer_instance

/-- C6 amended: executing the same `Dxyn` twice in succession (same opcode
bytes at `pc` and `pc+2`, sprite memory untouched by the draws, and
`x, y ≠ 0xF` so `Vx`, `Vy` are unchanged) returns *every* display cell to
its pre-first-draw value, and the second draw sets `VF = 1` *iff at least
one drawn pixel was off before the first draw* — an all-lit target region
gives `VF = 0` on the second draw even for a non-empty sprite (see the
counterexample). -/
theorem dxyn_double_draw (s : Chip8) (rnd1 rnd2 x y n : Nat)
    (hx : (fetchOp s &&& 0xf00) >>> 8 = x) (hy : (fetchOp s &&& 0xf0) >>> 4 = y)
    (hn : fetchOp s &&& 0xf = n)
    (hxf : x ≠ 0xf) (hyf : y ≠ 0xf)
    (hpc : s.pc + 3 < 0x1000)
    (hD : fetchOp s &&& 0xf000 = 0xd000)
    (hm2 : s.mem (s.pc + 2) = s.mem s.pc)
    (hm3 : s.mem (s.pc + 3) = s.mem (s.pc + 1))
    (hbound : ∀ r, r < n → (s.i + r) % 0x10000 < 0x1000) :
    ∃ s1 s2, cycle s rnd1 = Outcome.ok s1 ∧ cycle s1 rnd2 = Outcome.ok s2 ∧
      (∀ a b, s2.gfx a b = s.gfx a b) ∧
      s2.v 0xf = (if drawTouchesOff s x y n then 1 else 0) := by
  subst hx
  subst hy
  subst hn
  have hn32 : fetchOp s &&& 0xf ≤ 32 := by
    have := and_f_le (fetchOp s)
    omega
  have hpc1 : s.pc + 1 < 0x1000 := by omega
  obtain ⟨t1, ht1⟩ : ∃ t1, execDraw ((fetchOp s &&& 0xf00) >>> 8) ((fetchOp s &&& 0xf0) >>> 4)
      (fetchOp s &&& 0xf) ({ s with draw := false } : Chip8) = some t1 := by
    unfold execDraw
    refine drawRows_some _ _ _ 0 _ ?_
    intro r hr
    have := hbound r hr
    show (s.i + (0 + r)) % 0x10000 < 0x1000
    omega
  have hc1 := cycle_draw_step s rnd1 hpc1 hD t1 ht1
  have ht1base := execDraw_base _ _ _ _ t1 ht1
  have ht1mem : t1.mem = s.mem := ht1base.2.2.1
  have ht1i : t1.i = s.i := ht1base.2.2.2.2.1
  have ht1pc : t1.pc = s.pc := ht1base.2.2.2.2.2.1
  have ht1vx : t1.v ((fetchOp s &&& 0xf00) >>> 8) = s.v ((fetchOp s &&& 0xf00) >>> 8) :=
    execDraw_v _ _ _ _ hxf ({ s with draw := false } : Chip8) t1 ht1
  have ht1vy : t1.v ((fetchOp s &&& 0xf0) >>> 4) = s.v ((fetchOp s &&& 0xf0) >>> 4) :=
    execDraw_v _ _ _ _ hyf ({ s with draw := false } : Chip8) t1 ht1
  have hg1 : ∀ a b, t1.gfx a b =
      (if ∃ d, d < fetchOp s &&& 0xf ∧ b = (s.v ((fetchOp s &&& 0xf0) >>> 4) + d) % 32 ∧
          ∃ c, c < 8 ∧ spriteBit (s.mem ((s.i + d) % 0x10000)) c ∧
            a = (s.v ((fetchOp s &&& 0xf00) >>> 8) + c) % 64
       then s.gfx a b ^^^ 1 else s.gfx a b) := by
    intro a b
    have := execDraw_gfx _ _ _ hxf hyf hn32 _ t1 ht1 a b
    simpa using this
  obtain ⟨s1, hs1eq⟩ : ∃ s1, s1 = tickTimers (incPc { t1 with draw := true } false) :=
    ⟨_, rfl⟩
  rw [← hs1eq] at hc1
  have hs1pc : s1.pc = s.pc + 2 := by
    rw [hs1eq]
    simp [ht1pc, Nat.mod_eq_of_lt (show s.pc + 2 < 0x10000 by omega)]
  have hs1mem : s1.mem = s.mem := by rw [hs1eq]; simp [ht1mem]
  have hs1i : s1.i = s.i := by rw [hs1eq]; simp [ht1i]
  have hs1gfx : s1.gfx = t1.gfx := by rw [hs1eq]; simp
  have hs1v : s1.v = t1.v := by rw [hs1eq]; simp
  have hfetch : fetchOp s1 = fetchOp s := by
    unfold fetchOp
    rw [hs1mem, hs1pc]
    rw [show (s.pc + 2 + 1) % 0x10000 = s.pc + 3 from by omega]
    rw [hm2, hm3]
    rw [show (s.pc + 1) % 0x10000 = s.pc + 1 from by omega]
  obtain ⟨t2, ht2⟩ : ∃ t2, execDraw ((fetchOp s &&& 0xf00) >>> 8) ((fetchOp s &&& 0xf0) >>> 4)
      (fetchOp s &&& 0xf) ({ s1 with draw := false } : Chip8) = some t2 := by
    unfold execDraw
    refine drawRows_some _ _ _ 0 _ ?_
    intro r hr
    have := hbound r hr
    show (({ s1 with draw := false } : Chip8).i + (0 + r)) % 0x10000 < 0x1000
    simp only []
    rw [show ({ s1 with draw := false } : Chip8).i = s1.i from rfl, hs1i]
    omega
  have hc2 := cycle_draw_step s1 rnd2 (by rw [hs1pc]; omega)
    (by rw [hfetch]; exact hD) t2 (by rw [hfetch]; exact ht2)
  have hg2 : ∀ a b, t2.gfx a b =
      (if ∃ d, d < fetchOp s &&& 0xf ∧ b = (s.v ((fetchOp s &&& 0xf0) >>> 4) + d) % 32 ∧
          ∃ c, c < 8 ∧ spriteBit (s.mem ((s.i + d) % 0x10000)) c ∧
            a = (s.v ((fetchOp s &&& 0xf00) >>> 8) + c) % 64
       then t1.gfx a b ^^^ 1 else t1.gfx a b) := by
    intro a b
    have := execDraw_gfx _ _ _ hxf hyf hn32 _ t2 ht2 a b
    simp only [hs1gfx, hs1mem, hs1i, hs1v, ht1mem, ht1i] at this
    simpa [ht1vx, ht1vy] using this
  have hvf2 := execDraw_vf _ _ _ hxf hyf hn32 _ t2 ht2
  refine ⟨s1, _, hc1, hc2, ?_, ?_⟩
  · intro a b
    have hproj : (tickTimers (incPc { t2 with draw := true } false)).gfx = t2.gfx := by simp
    rw [hproj, hg2 a b, hg1 a b]
    by_cases hH : ∃ d, d < fetchOp s &&& 0xf ∧
        b = (s.v ((fetchOp s &&& 0xf0) >>> 4) + d) % 32 ∧
        ∃ c, c < 8 ∧ spriteBit (s.mem ((s.i + d) % 0x10000)) c ∧
          a = (s.v ((fetchOp s &&& 0xf00) >>> 8) + c) % 64
    · rw [if_pos hH, if_pos hH, xor_one_xor_one]
    · rw [if_neg hH, if_neg hH]
  · have hproj : (tickTimers (incPc { t2 with draw := true } false)).v = t2.v := by simp
    rw [hproj, hvf2]
    refine if_congr ?_ rfl rfl
    unfold windowCollides drawTouchesOff
    simp only [hs1gfx, hs1mem, hs1i, hs1v, ht1mem, ht1i, ht1vx, ht1vy, Nat.zero_add]
    constructor
    · rintro ⟨d, hd, c, hc, hbit, hcell⟩
      refine ⟨d, hd, c, hc, hbit, ?_⟩
      rw [hg1 _ _] at hcell
      rw [if_pos ⟨d, hd, rfl, c, hc, hbit, rfl⟩] at hcell
      exact (xor_one_eq_one _).mp hcell
    · rintro ⟨d, hd, c, hc, hbit, hcell⟩
      refine ⟨d, hd, c, hc, hbit, ?_⟩
      rw [hg1 _ _]
      rw [if_pos ⟨d, hd, rfl, c, hc, hbit, rfl⟩]
      exact (xor_one_eq_one _).mpr hcell

/-- Concrete state: `D011` at `0x200` and again at `0x202` (draw the 1-row
sprite `0x80` at `(V0, V1) = (0, 0)`), sprite at `I = 0x300`, and the
target pixel `(0,0)` already lit. -/
def exDraw : Chip8 :=
  { baseState with
    mem := fun a => if a = 0x200 then 0xd0 else if a = 0x201 then 0x11
      else if a = 0x202 then 0xd0 else if a = 0x203 then 0x11
      else if a = 0x300 then 0x80 else 0
    gfx := fun p q => if p = 0 then (if q = 0 then 1 else 0) else 0
    i := 0x300 }

/-- C6 counterexample: a non-empty sprite drawn twice at the same position
over an already-lit pixel.  The display is restored, but the *second* draw
turns the pixel from off back on — no toggle turns a lit pixel off — so
`VF = 0` after the second draw, not `1` as the claim demands. -/
theorem dxyn_double_draw_counterexample :
    spriteBit (exDraw.mem exDraw.i) 0 ∧
    cycle exDraw 0 = Outcome.ok (stepOk exDraw 0) ∧
    cycle (stepOk exDraw 0) 0 = Outcome.ok (stepOk (stepOk exDraw 0) 0) ∧
    (stepOk (stepOk exDraw 0) 0).gfx 0 0 = exDraw.gfx 0 0 ∧
    (stepOk (stepOk exDraw 0) 0).v 0xf = 0 ∧
    (stepOk (stepOk exDraw 0) 0).v 0xf ≠ 1 :=
  ⟨by decide, rfl, rfl, rfl, rfl, by decide⟩

/-- The same double draw but with the target pixel initially off. -/
def exDrawOff : Chip8 :=
  { baseState with
    mem := fun a => if a = 0x200 then 0xd0 else if a = 0x201 then 0x11
      else if a = 0x202 then 0xd0 else if a = 0x203 then 0x11
      else if a = 0x300 then 0x80 else 0
    i := 0x300 }

theorem dxyn_double_draw_witness :
    ∃ s1 s2, cycle exDrawOff 0 = Outcome.ok s1 ∧ cycle s1 0 = Outcome.ok s2 ∧
      (∀ a b, s2.gfx a b = exDrawOff.gfx a b) ∧
      s2.v 0xf = (if drawTouchesOff exDrawOff 0 1 1 then 1 else 0) :=
  dxyn_double_draw exDrawOff 0 0 0 1 1 (by decide) (by decide) (by decide) (by decide)
    (by decide) (by decide) (by decide) (by decide) (by decide) (by decide)
